import Mathlib

/-!
Verification of the RailBridge cross-chain payment facilitator.

This file gives a shallow embedding, in Lean 4, of the parts of the
RailBridge source that the specification's claims are about:

* the decimal rendering of USDC base-unit amounts
  (`circleCCTPBridgeService.ts`, `toHumanReadableUSDC`);
* the cross-chain extension extraction (`extensions/crossChain.ts`);
* the EIP-712 domain reconstruction (`buildDomain` in the exact-evm
  domain scheme);
* the exact-evm `verify` and `settle` operations
  (`ExactEvmSchemeDomainFacilitator`);
* the cross-chain router (`CrossChainRouter`);
* the pre-verify cross-chain validation
  (`validateCrossChainRequest` in `facilitator-implementation.ts`);
* the strict USDC allowlist check of `CircleCCTPBridgeService`;
* the bridge retry loop and asynchronous bridge worker
  (`client-example.ts`: `isRetryableBridgeError`, `attemptBridgeWithRetry`,
  `handleCrossChainBridgeAsync`);
* the SQLite bridge-job store (`bridgeJobRepository.ts`).

Effectful collaborators (RPC clients, signature libraries, the Circle
BridgeKit) are modelled as explicit parameters; machine integers that the
TypeScript holds as `bigint` decimal strings are modelled as `Nat`.
-/

namespace RailBridge

/-! ## String utilities shared by the embedding

JavaScript `toLowerCase` on the ASCII strings handled here (hex addresses,
CAIP-2 ids, error messages) lowercases ASCII letters, which is what
`Char.toLower` does. -/

/-- Lowercase a string, modelling JavaScript `String.prototype.toLowerCase`
on ASCII input. -/
def lowerStr (s : String) : String :=
  String.mk (s.toList.map Char.toLower)

/-- Check whether `needle` is a prefix of `hay` (on character lists). -/
def charsPrefix : List Char → List Char → Bool
  | [], _ => true
  | _ :: _, [] => false
  | n :: ns, h :: hs => n == h && charsPrefix ns hs

/-- Check whether `needle` occurs as a contiguous substring of `hay`
(on character lists). -/
def charsIncludes (hay needle : List Char) : Bool :=
  match hay with
  | [] => charsPrefix needle []
  | _ :: t => charsPrefix needle hay || charsIncludes t needle

/-- Model of JavaScript `String.prototype.includes`. -/
def strIncludes (hay needle : String) : Bool :=
  charsIncludes hay.toList needle.toList

/-- Truthiness of an optional JavaScript string: `undefined` and the empty
string are falsy, every other string is truthy. -/
def strTruthy : Option String → Bool
  | none => false
  | some s => s ≠ ""

/-- Lexical test for a CAIP-2 EVM network id, the regular expression
`^eip155:\d+$` used by the cross-chain extension. -/
def caip2Ok (s : String) : Bool :=
  charsPrefix "eip155:".toList s.toList &&
    (let rest := s.toList.drop 7
     !rest.isEmpty && rest.all Char.isDigit)

/-- Test for a hexadecimal digit (either case). -/
def isHexCh (c : Char) : Bool :=
  c.isDigit || (c.toLower ≥ 'a' && c.toLower ≤ 'f')

/-- Lexical test for an EVM address, the regular expression
`^0x[a-fA-F0-9]{40}$` used by the cross-chain extension. -/
def hexAddr40Ok (s : String) : Bool :=
  charsPrefix "0x".toList s.toList &&
    (let rest := s.toList.drop 2
     rest.length == 40 && rest.all isHexCh)

/-- Model of viem's `isAddress` as used by `validateCrossChainRequest`: a
`0x`-prefixed 40-hex-digit string. (viem additionally validates the EIP-55
checksum of mixed-case inputs; all concrete addresses appearing in the
theorems below are lowercase, where viem and this model agree.) -/
def isAddressModel (s : String) : Bool :=
  hexAddr40Ok s

/-- Case-insensitive address equality. The source compares either
lowercased strings (`payTo.toLowerCase() !== address.toLowerCase()`) or
viem `getAddress` checksum normalisations, which coincide on equality. -/
def addrEq (a b : String) : Bool :=
  lowerStr a == lowerStr b

/-! ## Decimal rendering of USDC amounts

`toHumanReadableUSDC` (`circleCCTPBridgeService.ts`, identical in both
service variants) converts a base-unit amount (6 decimals) to the
human-readable decimal string expected by Circle BridgeKit. Digit strings
are modelled as big-endian digit lists; the rendered string is
`intPart`, or `intPart ++ "." ++ fracPart` when `fracPart` is nonempty. -/

/-- Big-endian decimal digits of `n` as produced by JavaScript
`BigInt.prototype.toString`; `0` renders as the single digit `0`. -/
def jsDigits (n : Nat) : List Nat :=
  if n = 0 then [0] else (Nat.digits 10 n).reverse

/-- Numeric value denoted by a big-endian decimal digit list. -/
def digitsVal (ds : List Nat) : Nat :=
  Nat.ofDigits 10 ds.reverse

/-- Model of `.padStart(6, "0")` on a big-endian digit list. -/
def padStart6 (ds : List Nat) : List Nat :=
  List.replicate (6 - ds.length) 0 ++ ds

/-- Model of `.replace(/0+$/, "")`: remove trailing zeros. -/
def trimTrailingZeros (ds : List Nat) : List Nat :=
  (ds.reverse.dropWhile (· == 0)).reverse

/-- Result of `toHumanReadableUSDC`: the string `intPart` when `fracPart`
is empty, otherwise `intPart ++ "." ++ fracPart`. -/
structure HumanAmount where
  intPart : List Nat
  fracPart : List Nat
deriving Repr, DecidableEq

/-- Embedding of `toHumanReadableUSDC(amount)` from
`circleCCTPBridgeService.ts` (both variants have the same body):
`integer = value / 10^6`, `fraction = value % 10^6`; when the fraction is
zero only the integer is rendered, otherwise the fraction is left-padded
to six digits and its trailing zeros are trimmed. -/
def toHumanReadableUSDC (amount : Nat) : HumanAmount :=
  let base : Nat := 10 ^ 6
  let integer := amount / base
  let fraction := amount % base
  if fraction = 0 then
    ⟨jsDigits integer, []⟩
  else
    ⟨jsDigits integer, trimTrailingZeros (padStart6 (jsDigits fraction))⟩

/-- Interpreting a rendered amount back as a decimal number and scaling by
`10^6`: the integer part contributes `10^6` times its value, and a
fractional part of length `k ≤ 6` contributes its value times `10^(6-k)`. -/
def decimalValueE6 (h : HumanAmount) : Nat :=
  digitsVal h.intPart * 10 ^ 6 + digitsVal h.fracPart * 10 ^ (6 - h.fracPart.length)

theorem digitsVal_jsDigits (n : Nat) : digitsVal (jsDigits n) = n := by
  by_cases h : n = 0
  · subst h; rfl
  · simp [digitsVal, jsDigits, h, List.reverse_reverse, Nat.ofDigits_digits]

theorem ofDigits_replicate_zero (k : Nat) :
    Nat.ofDigits 10 (List.replicate k 0) = 0 := by
  induction k with
  | zero => rfl
  | succ k ih => simp [List.replicate_succ, Nat.ofDigits_cons, ih]

theorem dropWhile_len_le (p : Nat → Bool) (l : List Nat) :
    (l.dropWhile p).length ≤ l.length := by
  induction l with
  | nil => simp
  | cons a t ih =>
    by_cases h : p a
    · simp only [List.dropWhile_cons, h, if_true, List.length_cons]
      omega
    · simp [List.dropWhile_cons, h]

/-- Dropping the low-order zero digits of a little-endian digit list and
rescaling by the number of digits dropped preserves the denoted value. -/
theorem ofDigits_dropWhile_zero (L : List Nat) :
    Nat.ofDigits 10 (L.dropWhile (· == 0)) *
      10 ^ (L.length - (L.dropWhile (· == 0)).length) = Nat.ofDigits 10 L := by
  induction L with
  | nil => simp
  | cons d t ih =>
    by_cases hd : d = 0
    · subst hd
      have hlen : (t.dropWhile (· == 0)).length ≤ t.length :=
        dropWhile_len_le _ t
      have hsub : (0 :: t).length - (t.dropWhile (· == 0)).length
          = (t.length - (t.dropWhile (· == 0)).length) + 1 := by
        simp only [List.length_cons]
        omega
      simp only [List.dropWhile_cons, beq_self_eq_true, if_true, hsub,
        Nat.ofDigits_cons]
      rw [pow_succ]
      rw [← Nat.mul_assoc] at *
      rw [Nat.mul_comm _ 10] at *
      omega
    · have hne : (d == 0) = false := by simp [hd]
      simp [List.dropWhile_cons, hne, Nat.ofDigits_cons]

theorem ofDigits_eq_zero_of_all_zero :
    ∀ L : List Nat, (∀ a ∈ L, (a == 0) = true) → Nat.ofDigits 10 L = 0 := by
  intro L
  induction L with
  | nil => intro _; rfl
  | cons d t ih =>
    intro hall
    have hd : d = 0 := by simpa using hall d (by simp)
    have ht := ih (fun a ha => hall a (by simp [ha]))
    simp [Nat.ofDigits_cons, hd, ht]

theorem dropWhile_zero_nonempty (L : List Nat) (h : Nat.ofDigits 10 L ≠ 0) :
    L.dropWhile (· == 0) ≠ [] := by
  intro hnil
  exact h (ofDigits_eq_zero_of_all_zero L (List.dropWhile_eq_nil_iff.mp hnil))

theorem digits_len_le_of_lt (f : Nat) (hf : f < 10 ^ 6) :
    (Nat.digits 10 f).length ≤ 6 := by
  rcases Nat.eq_zero_or_pos f with h | h
  · subst h; simp
  · rw [Nat.digits_len 10 f (by norm_num) (by omega)]
    have := Nat.log_lt_of_lt_pow (b := 10) (x := 6) (by omega : f ≠ 0) hf
    omega

theorem toHumanReadableUSDC_eq (n : Nat) :
    toHumanReadableUSDC n =
      if n % 10 ^ 6 = 0 then ⟨jsDigits (n / 10 ^ 6), []⟩
      else ⟨jsDigits (n / 10 ^ 6), trimTrailingZeros (padStart6 (jsDigits (n % 10 ^ 6)))⟩ :=
  rfl

/-- Claim C10: `toHumanReadableUSDC` renders the exact decimal
representation of `amount / 10^6`: the integer part is `amount / 10^6`,
the fractional part is `amount % 10^6` left-padded to six digits with
trailing zeros removed and omitted entirely when `amount % 10^6 = 0`,
and reading the result back as a decimal number times `10^6` recovers
`amount` exactly. -/
theorem toHumanReadableUSDC_exact (n : Nat) :
    (toHumanReadableUSDC n).intPart = jsDigits (n / 10 ^ 6) ∧
    ((toHumanReadableUSDC n).fracPart = [] ↔ n % 10 ^ 6 = 0) ∧
    (n % 10 ^ 6 ≠ 0 →
      (toHumanReadableUSDC n).fracPart
        = trimTrailingZeros (padStart6 (jsDigits (n % 10 ^ 6)))) ∧
    decimalValueE6 (toHumanReadableUSDC n) = n := by
  have hdm : 10 ^ 6 * (n / 10 ^ 6) + n % 10 ^ 6 = n := Nat.div_add_mod n (10 ^ 6)
  have hpow : (10 : Nat) ^ 6 = 1000000 := by norm_num
  by_cases hf : n % 10 ^ 6 = 0
  · have he : toHumanReadableUSDC n = ⟨jsDigits (n / 10 ^ 6), []⟩ := by
      rw [toHumanReadableUSDC_eq, if_pos hf]
    refine ⟨by rw [he], ?_, fun h => absurd hf h, ?_⟩
    · rw [he]
      simpa using hf
    · rw [he]
      simp only [decimalValueE6, digitsVal_jsDigits]
      have h0 : digitsVal ([] : List Nat) = 0 := rfl
      rw [h0]
      rw [hpow] at hdm hf ⊢
      omega
  · -- the fractional branch
    have he : toHumanReadableUSDC n
        = ⟨jsDigits (n / 10 ^ 6), trimTrailingZeros (padStart6 (jsDigits (n % 10 ^ 6)))⟩ := by
      rw [toHumanReadableUSDC_eq, if_neg hf]
    set f := n % 10 ^ 6 with hfdef
    have hflt : f < 10 ^ 6 := Nat.mod_lt _ (by norm_num)
    have hjs : jsDigits f = (Nat.digits 10 f).reverse := by
      simp [jsDigits, hf]
    -- little-endian view of the padded digit list
    set k := 6 - (Nat.digits 10 f).length with hk
    have hlen6 : (Nat.digits 10 f).length ≤ 6 := digits_len_le_of_lt f hflt
    set L := Nat.digits 10 f ++ List.replicate k 0 with hL
    have hpad : padStart6 (jsDigits f) = L.reverse := by
      simp [padStart6, hjs, List.reverse_append, hk, hL]
    have hLlen : L.length = 6 := by
      rw [hL]
      simp only [List.length_append, List.length_replicate]
      omega
    have hLval : Nat.ofDigits 10 L = f := by
      simp [hL, Nat.ofDigits_append, ofDigits_replicate_zero, Nat.ofDigits_digits]
    have hfrac : (toHumanReadableUSDC n).fracPart
        = (L.dropWhile (· == 0)).reverse := by
      rw [he]
      simp [trimTrailingZeros, hpad, List.reverse_reverse]
    have hne : L.dropWhile (· == 0) ≠ [] :=
      dropWhile_zero_nonempty L (by rw [hLval]; exact hf)
    refine ⟨by rw [he], ?_, fun _ => by rw [he], ?_⟩
    · constructor
      · intro hnil
        rw [hfrac] at hnil
        exact absurd (by simpa using congrArg List.reverse hnil) hne
      · intro h; exact absurd h hf
    · have hfracval : digitsVal (toHumanReadableUSDC n).fracPart
          * 10 ^ (6 - (toHumanReadableUSDC n).fracPart.length) = f := by
        rw [hfrac]
        simp only [digitsVal, List.reverse_reverse, List.length_reverse]
        have hkey := ofDigits_dropWhile_zero L
        rw [hLlen] at hkey
        exact hkey.trans hLval
      have hint : (toHumanReadableUSDC n).intPart = jsDigits (n / 10 ^ 6) := by
        rw [he]
      simp only [decimalValueE6, hint, digitsVal_jsDigits, hfracval]
      rw [hpow] at hdm ⊢
      omega

/-- Witness for claim C10 at the concrete amount 10500 base units
(rendered as the digit lists of `0` and `0105`, i.e. the string
`"0.0105"`). -/
theorem toHumanReadableUSDC_exact_witness :
    (10500 % 10 ^ 6 ≠ 0 ∧
      (toHumanReadableUSDC 10500).fracPart
        = trimTrailingZeros (padStart6 (jsDigits (10500 % 10 ^ 6)))) ∧
    decimalValueE6 (toHumanReadableUSDC 10500) = 10500 :=
  ⟨⟨by decide, (toHumanReadableUSDC_exact 10500).2.2.1 (by decide)⟩,
    (toHumanReadableUSDC_exact 10500).2.2.2⟩

/-! ## Data model

The payment data model from `@x402/core/types` as used by this repository:
`PaymentRequirements`, `PaymentPayload` with the exact-evm
`{ authorization, signature }` payload, and the extensions record.
Numeric decimal strings (`value`, `validAfter`, `validBefore`, `amount`)
are modelled as `Nat`; `bigint` conversion is exact on them. -/

/-- EIP-3009 authorization carried in an exact-evm payload. -/
structure Authorization where
  fromAddr : String
  toAddr : String
  value : Nat
  validAfter : Nat
  validBefore : Nat
  nonce : String
deriving Repr, DecidableEq

/-- The exact-evm scheme payload: an authorization and its signature. -/
structure ExactPayloadData where
  authorization : Authorization
  signature : String
deriving Repr, DecidableEq

/-- The fields of the accepted requirements that the scheme reads. -/
structure AcceptedInfo where
  scheme : String
  network : String
deriving Repr, DecidableEq

/-- Raw cross-chain extension info object. Either variant of the extension
stores its data here; fields the JSON does not carry are `none`. -/
structure ExtInfoRaw where
  sourceNetwork? : Option String := none
  sourceAsset? : Option String := none
  destinationNetwork? : Option String := none
  destinationAsset? : Option String := none
  destinationPayTo? : Option String := none
deriving Repr, DecidableEq

/-- An entry of the payload's `extensions` record. -/
structure ExtEntry where
  info? : Option ExtInfoRaw := none
deriving Repr, DecidableEq

/-- A payment payload: protocol version, the accepted requirements, the
exact-evm payload data, and the optional extensions record. -/
structure PaymentPayloadM where
  x402Version : Nat
  accepted : AcceptedInfo
  payloadData : ExactPayloadData
  extensions? : Option (List (String × ExtEntry)) := none
deriving Repr, DecidableEq

/-- EIP-712 domain hints under `requirements.extra.domain`. -/
structure DomainExtra where
  fields? : Option Nat := none
  chainId? : Option Nat := none
  salt? : Option String := none
deriving Repr, DecidableEq

/-- The `extra` object of payment requirements. -/
structure ExtraInfo where
  name? : Option String := none
  version? : Option String := none
  domain? : Option DomainExtra := none
deriving Repr, DecidableEq

/-- Payment requirements as issued by the merchant. -/
structure PaymentRequirementsM where
  scheme : String
  network : String
  asset : String
  amount : Nat
  payTo : String
  maxTimeoutSeconds : Nat
  extra? : Option ExtraInfo := none
deriving Repr, DecidableEq

/-- Verify response shape. -/
structure VerifyResponse where
  isValid : Bool
  invalidReason? : Option String := none
  payer? : Option String := none
deriving Repr, DecidableEq

/-- Settle response shape. -/
structure SettleResponse where
  success : Bool
  transaction : String
  network : String
  payer? : Option String := none
  errorReason? : Option String := none
deriving Repr, DecidableEq

/-! ## Cross-chain extension (`extensions/crossChain.ts`) -/

/-- Extension identifier for cross-chain payments. -/
def CROSS_CHAIN : String := "cross-chain"

/-- Cross-chain info returned by the extraction in
`src/facilitator/src/extensions/crossChain.ts`: the source network and
source asset. -/
structure CrossChainInfo where
  sourceNetwork : String
  sourceAsset : String
deriving Repr, DecidableEq

/-- Embedding of `extractCrossChainInfo(payload)` from
`extensions/crossChain.ts` lines 160-196: returns the info only when the
payload's `cross-chain` extension carries an `info` object whose
`sourceNetwork` matches `^eip155:\d+$` and whose `sourceAsset` matches
`^0x[a-fA-F0-9]{40}$`; otherwise `null`. -/
def extractCrossChainInfo (payload : PaymentPayloadM) : Option CrossChainInfo :=
  match payload.extensions? with
  | none => none
  | some exts =>
    match exts.lookup CROSS_CHAIN with
    | none => none
    | some ext =>
      match ext.info? with
      | none => none
      | some info =>
        match info.sourceNetwork?, info.sourceAsset? with
        | some sn, some sa =>
          if caip2Ok sn && hexAddr40Ok sa then some ⟨sn, sa⟩ else none
        | _, _ => none

/-- Cross-chain info in the destination-field form consumed by
`facilitator-implementation.ts` (`destinationNetwork`, `destinationAsset`,
`destinationPayTo`). -/
structure CrossChainInfoDest where
  destinationNetwork : String
  destinationAsset : String
  destinationPayTo : String
deriving Repr, DecidableEq

/-- Modelled from the spec: the destination-field variant of
`extractCrossChainInfo` that `facilitator-implementation.ts` imports (its
`extensions/crossChain.ts` revision is not among the sources; only the
call sites reading `destinationNetwork`, `destinationAsset` and
`destinationPayTo` are). Per spec §4.4 it returns the info only if all
three fields are present and syntactically valid (`^eip155:\d+$` for the
network, `^0x[0-9a-fA-F]{40}$` for the addresses), and `null` otherwise. -/
def extractCrossChainInfoDest (payload : PaymentPayloadM) : Option CrossChainInfoDest :=
  match payload.extensions? with
  | none => none
  | some exts =>
    match exts.lookup CROSS_CHAIN with
    | none => none
    | some ext =>
      match ext.info? with
      | none => none
      | some info =>
        match info.destinationNetwork?, info.destinationAsset?, info.destinationPayTo? with
        | some dn, some da, some dp =>
          if caip2Ok dn && hexAddr40Ok da && hexAddr40Ok dp then some ⟨dn, da, dp⟩
          else none
        | _, _, _ => none

/-! ## Circle CCTP bridge service (`circleCCTPBridgeService.ts`, strict
variant, lines 394-775) -/

/-- The `chainNameMap` of the strict `CircleCCTPBridgeService` variant:
CAIP-2 ids to Circle BridgeKit chain names. -/
def chainNameMap : List (String × String) :=
  [("eip155:84532", "Base_Sepolia"),
   ("eip155:8453", "Base"),
   ("eip155:421614", "Arbitrum_Sepolia"),
   ("eip155:42161", "Arbitrum"),
   ("eip155:11155111", "Ethereum_Sepolia"),
   ("eip155:1", "Ethereum"),
   ("eip155:80002", "Polygon_Amoy"),
   ("eip155:137", "Polygon")]

/-- The `defaultUsdcAddresses` per-chain USDC allowlist of the strict
`CircleCCTPBridgeService` variant. -/
def defaultUsdcAddresses : List (String × List String) :=
  [("eip155:84532", ["0x036CbD53842c5426634e7929541eC2318f3dCF7e"]),
   ("eip155:8453", ["0x833589fCD6eDb6E08f4c7C32D4f71b54bdA02913"]),
   ("eip155:11155111", ["0x1c7D4B196Cb0C7B01d743Fbc6116a902379C7238"]),
   ("eip155:1", ["0xA0b86991C6218b36c1d19D4a2e9Eb0cE3606eB48"]),
   ("eip155:137", ["0x3c499c542cEF5E3811e1192ce70d8cC03d5c3359"])]

/-- Embedding of the strict `isUSDC(asset, chain)`
(`circleCCTPBridgeService.ts` lines 644-654): reject non-addresses, then
require the lowercased asset to appear in the lowercased per-chain
allowlist; chains without an allowlist entry are rejected. -/
def cctpIsUSDC (asset : String) (chain : String) : Bool :=
  if !isAddressModel asset then false
  else
    let normalized := lowerStr asset
    match defaultUsdcAddresses.lookup chain with
    | none => false
    | some allowlist =>
      if allowlist.isEmpty then false
      else allowlist.any (fun address => lowerStr address == normalized)

/-- Modelled from the spec: `BridgeProvider.supportsChain(network)`
(spec §4.7). The call sites in `validateCrossChainRequest` invoke it on
the strict `CircleCCTPBridgeService`, whose revision carrying this method
is not among the sources; the service determines chain support through
`chainNameMap` (`mapNetworkToChainName` returns `null` off the map), so
support is modelled as membership in that map. -/
def cctpSupportsChain (network : String) : Bool :=
  (chainNameMap.lookup network).isSome

/-- Embedding of the strict variant's `getExchangeRate` result for a
source/destination asset pair (`circleCCTPBridgeService.ts` lines
505-523): 1 when both assets are USDC on their chains, 0 otherwise. -/
def cctpGetExchangeRate (sourceAsset sourceChain destAsset destChain : String) : Int :=
  if cctpIsUSDC sourceAsset sourceChain && cctpIsUSDC destAsset destChain then 1 else 0

/-! ## Pre-verify cross-chain validation
(`facilitator-implementation.ts` lines 1030-1066 and the `onBeforeVerify`
hook, lines 1092-1140) -/

/-- Result of `validateCrossChainRequest`. -/
structure ValidationResult where
  abort : Bool
  reason? : Option String := none
deriving Repr, DecidableEq

/-- Embedding of `validateCrossChainRequest(paymentPayload, requirements)`
from `facilitator-implementation.ts` lines 1030-1066. The checks run in
source order: extraction/enabled gate, destination address validity,
chain-pair support, source asset allowlist, destination asset allowlist,
and finally the case-insensitive comparison of `requirements.payTo` with
the facilitator's own address. -/
def validateCrossChainRequest (enabled : Bool) (facilitatorAddress : String)
    (payload : PaymentPayloadM) (requirements : PaymentRequirementsM) : ValidationResult :=
  match extractCrossChainInfoDest payload with
  | none => ⟨false, none⟩
  | some crossChainInfo =>
    if !enabled then ⟨false, none⟩
    else if !isAddressModel crossChainInfo.destinationPayTo then
      ⟨true, some "invalid_destination_pay_to"⟩
    else if !cctpSupportsChain requirements.network
        || !cctpSupportsChain crossChainInfo.destinationNetwork then
      ⟨true, some "unsupported_chain_pair"⟩
    else if !cctpIsUSDC requirements.asset requirements.network then
      ⟨true, some "unsupported_source_asset"⟩
    else if !cctpIsUSDC crossChainInfo.destinationAsset crossChainInfo.destinationNetwork then
      ⟨true, some "unsupported_destination_asset"⟩
    else if lowerStr requirements.payTo != lowerStr facilitatorAddress then
      ⟨true, some "invalid_source_pay_to"⟩
    else ⟨false, none⟩

/-- Embedding of the `onBeforeVerify` hook body
(`facilitator-implementation.ts` lines 1092-1140): run
`validateCrossChainRequest` and abort with its reason (default
`invalid_cross_chain_request`); then, for enabled cross-chain payments,
check bridge liquidity (`liquidity` models the awaited
`checkLiquidity` result) and, when the assets differ, the exchange rate.
Returns the abort reason, or `none` to continue. -/
def onBeforeVerifyHook (enabled : Bool) (facilitatorAddress : String) (liquidity : Bool)
    (payload : PaymentPayloadM) (requirements : PaymentRequirementsM) : Option String :=
  let validation := validateCrossChainRequest enabled facilitatorAddress payload requirements
  if validation.abort then some (validation.reason?.getD "invalid_cross_chain_request")
  else
    match extractCrossChainInfoDest payload with
    | some crossChainInfo =>
      if enabled then
        if !liquidity then some "insufficient_bridge_liquidity"
        else if requirements.asset != crossChainInfo.destinationAsset then
          if cctpGetExchangeRate requirements.asset requirements.network
              crossChainInfo.destinationAsset crossChainInfo.destinationNetwork ≤ 0 then
            some "invalid_exchange_rate"
          else none
        else none
      else none
    | none => none

/-- Modelled from the spec: the orchestrator's verify dispatch (spec §4.5,
steps 3-4). When an `onBeforeVerify` hook aborts with a reason, the
request short-circuits with that reason and the scheme's `verify` is never
invoked; otherwise the scheme verifies. The boolean records whether the
scheme's `verify` ran. -/
def runVerifyWithHook (hookResult : Option String)
    (schemeVerify : Unit → VerifyResponse) : VerifyResponse × Bool :=
  match hookResult with
  | some reason => (⟨false, some reason, none⟩, false)
  | none => (schemeVerify (), true)

/-! ## Concrete fixtures used by counterexamples and witnesses -/

/-- A fixed facilitator signer address. -/
def facAddr : String := "0xf719749c2c9e5b8060a5829e9e2d47023d32183a"

/-- USDC on Base Sepolia (from the allowlist). -/
def usdcBaseSepolia : String := "0x036CbD53842c5426634e7929541eC2318f3dCF7e"

/-- USDC on Ethereum Sepolia (from the allowlist), lowercased. -/
def usdcEthSepoliaLower : String := "0x1c7d4b196cb0c7b01d743fbc6116a902379c7238"

/-- A syntactically valid address that is on no USDC allowlist. -/
def daiAddr : String := "0x6b175474e89094c44da98b954eedeac495271d0f"

/-- A placeholder authorization used where a claim does not depend on the
authorization's contents. -/
def dummyAuth : Authorization :=
  ⟨"0x1111111111111111111111111111111111111111",
   "0x2222222222222222222222222222222222222222",
   10000, 0, 2000000000, "0x01"⟩

/-- A payload carrying a cross-chain extension with the three destination
fields, all syntactically valid, and no source fields. -/
def destOnlyPayload : PaymentPayloadM :=
  { x402Version := 2
  , accepted := ⟨"cross-chain", "eip155:84532"⟩
  , payloadData := ⟨dummyAuth, "0xsig"⟩
  , extensions? := some [(CROSS_CHAIN,
      { info? := some
          { destinationNetwork? := some "eip155:11155111"
          , destinationAsset? := some usdcEthSepoliaLower
          , destinationPayTo? := some "0x2222222222222222222222222222222222222222" } })] }

/-- The destination-only payload with an unsupported destination network
(`eip155:2` is on no chain map). -/
def destUnsupportedPayload : PaymentPayloadM :=
  { destOnlyPayload with
      extensions? := some [(CROSS_CHAIN,
        { info? := some
            { destinationNetwork? := some "eip155:2"
            , destinationAsset? := some usdcEthSepoliaLower
            , destinationPayTo? := some "0x2222222222222222222222222222222222222222" } })] }

/-- Cross-chain requirements paying a non-facilitator address. -/
def wrongPayToReq : PaymentRequirementsM :=
  { scheme := "cross-chain"
  , network := "eip155:84532"
  , asset := usdcBaseSepolia
  , amount := 10000
  , payTo := "0x3333333333333333333333333333333333333333"
  , maxTimeoutSeconds := 600
  , extra? := some { name? := some "USDC", version? := some "2" } }

/-! ## Claim C6: cross-chain extraction -/

/-- The extension lookup chain shared by both extraction variants:
`payload.extensions`, then the `cross-chain` entry, then its `info`. -/
def rawInfoOf (payload : PaymentPayloadM) : Option ExtInfoRaw :=
  payload.extensions?.bind fun exts =>
    (exts.lookup CROSS_CHAIN).bind fun ext => ext.info?

theorem extractCrossChainInfo_eq_bind (p : PaymentPayloadM) :
    extractCrossChainInfo p = (rawInfoOf p).bind fun info =>
      match info.sourceNetwork?, info.sourceAsset? with
      | some sn, some sa =>
        if caip2Ok sn && hexAddr40Ok sa then some ⟨sn, sa⟩ else none
      | _, _ => none := by
  unfold extractCrossChainInfo rawInfoOf
  cases hx : p.extensions? with
  | none => rfl
  | some exts =>
    dsimp only
    cases hl : List.lookup CROSS_CHAIN exts with
    | none => simp [hl]
    | some ext =>
      dsimp only
      cases hi : ext.info? with
      | none => simp [hl, hi]
      | some info => simp [hl, hi]

/-- Counterexample to claim C6: a payload whose cross-chain extension
carries all three destination fields, each syntactically valid
(`destinationNetwork` matching the CAIP-2 pattern, both addresses
matching the address pattern), on which `extractCrossChainInfo`
nevertheless returns `null` — the extraction in
`extensions/crossChain.ts` validates `sourceNetwork` and `sourceAsset`,
not the destination fields. -/
theorem extractCrossChainInfo_dest_fields_cex :
    (∃ raw, rawInfoOf destOnlyPayload = some raw ∧
      ∃ dn da dp, raw.destinationNetwork? = some dn ∧
        raw.destinationAsset? = some da ∧ raw.destinationPayTo? = some dp ∧
        caip2Ok dn = true ∧ hexAddr40Ok da = true ∧ hexAddr40Ok dp = true) ∧
    extractCrossChainInfo destOnlyPayload = none := by
  constructor
  · exact ⟨{ destinationNetwork? := some "eip155:11155111"
           , destinationAsset? := some usdcEthSepoliaLower
           , destinationPayTo? := some "0x2222222222222222222222222222222222222222" },
      by decide, "eip155:11155111", usdcEthSepoliaLower,
      "0x2222222222222222222222222222222222222222", by decide, by decide, by decide,
      by decide, by decide, by decide⟩
  · decide

/-- Claim C6 as amended: `extractCrossChainInfo` returns a non-null value
exactly when the payload's `cross-chain` extension has an `info` object
whose `sourceNetwork` and `sourceAsset` fields are present and
syntactically valid (`^eip155:\d+$` for the network,
`^0x[0-9a-fA-F]{40}$` for the asset address); the returned info consists
of those two source fields. In every other case it returns null. -/
theorem extractCrossChainInfo_characterization (p : PaymentPayloadM) (info : CrossChainInfo) :
    extractCrossChainInfo p = some info ↔
      ∃ raw, rawInfoOf p = some raw ∧
        raw.sourceNetwork? = some info.sourceNetwork ∧
        raw.sourceAsset? = some info.sourceAsset ∧
        caip2Ok info.sourceNetwork = true ∧
        hexAddr40Ok info.sourceAsset = true := by
  cases info with
  | mk isn isa =>
    rw [extractCrossChainInfo_eq_bind]
    cases hraw : rawInfoOf p with
    | none => simp
    | some raw =>
      have hred : (some raw).bind (fun info : ExtInfoRaw =>
          match info.sourceNetwork?, info.sourceAsset? with
          | some sn, some sa =>
            if caip2Ok sn && hexAddr40Ok sa then some (⟨sn, sa⟩ : CrossChainInfo) else none
          | _, _ => none)
          = match raw.sourceNetwork?, raw.sourceAsset? with
            | some sn, some sa =>
              if caip2Ok sn && hexAddr40Ok sa then some (⟨sn, sa⟩ : CrossChainInfo) else none
            | _, _ => none := rfl
      rw [hred]
      cases hsn : raw.sourceNetwork? with
      | none =>
        dsimp only
        simp [hsn]
      | some sn =>
        cases hsa : raw.sourceAsset? with
        | none =>
          dsimp only
          simp [hsn, hsa]
        | some sa =>
          dsimp only
          by_cases hok : (caip2Ok sn && hexAddr40Ok sa) = true
          · rw [if_pos hok]
            simp only [Option.some.injEq, CrossChainInfo.mk.injEq]
            constructor
            · rintro ⟨rfl, rfl⟩
              exact ⟨raw, rfl, hsn, hsa,
                (Bool.and_eq_true _ _).mp hok |>.1,
                (Bool.and_eq_true _ _).mp hok |>.2⟩
            · rintro ⟨raw', hraw', h1, h2, h3, h4⟩
              cases hraw'
              rw [hsn] at h1
              rw [hsa] at h2
              exact ⟨(Option.some.injEq _ _ ▸ h1), (Option.some.injEq _ _ ▸ h2)⟩
          · rw [if_neg hok]
            constructor
            · intro h; exact absurd h (by simp)
            · rintro ⟨raw', hraw', h1, h2, h3, h4⟩
              cases hraw'
              rw [hsn] at h1
              rw [hsa] at h2
              cases h1
              cases h2
              exact absurd (by rw [h3, h4]; rfl) hok

/-! ## Claim C1: the invalid_source_pay_to guard -/

/-- Counterexample to claim C1: a cross-chain request with a valid
extension, cross-chain enabled, and `requirements.payTo` different from
the facilitator's address, on which verification aborts with
`unsupported_chain_pair` rather than `invalid_source_pay_to` — the
chain-support check runs before the payTo comparison in
`validateCrossChainRequest`. -/
theorem validateCrossChain_payTo_cex :
    (extractCrossChainInfoDest destUnsupportedPayload).isSome = true ∧
    lowerStr wrongPayToReq.payTo ≠ lowerStr facAddr ∧
    validateCrossChainRequest true facAddr destUnsupportedPayload wrongPayToReq
      = ⟨true, some "unsupported_chain_pair"⟩ := by
  refine ⟨by decide, by decide, by decide⟩

/-- Claim C1 as amended: for a cross-chain payment request (valid
extension, cross-chain enabled) whose preceding checks pass — the
destination payTo is a valid address, both chains are supported by the
bridge provider and both assets are USDC per the allowlist — if
`requirements.payTo` differs from the facilitator's address on the source
chain under case-insensitive comparison, then verification aborts with
`invalid_source_pay_to` and no scheme verification is performed. -/
theorem validateCrossChain_payTo_abort (fac : String)
    (payload : PaymentPayloadM) (req : PaymentRequirementsM) (info : CrossChainInfoDest)
    (hx : extractCrossChainInfoDest payload = some info)
    (haddr : isAddressModel info.destinationPayTo = true)
    (hsrc : cctpSupportsChain req.network = true)
    (hdst : cctpSupportsChain info.destinationNetwork = true)
    (husdc1 : cctpIsUSDC req.asset req.network = true)
    (husdc2 : cctpIsUSDC info.destinationAsset info.destinationNetwork = true)
    (hpay : lowerStr req.payTo ≠ lowerStr fac) :
    validateCrossChainRequest true fac payload req = ⟨true, some "invalid_source_pay_to"⟩ ∧
    ∀ (liquidity : Bool) (schemeVerify : Unit → VerifyResponse),
      runVerifyWithHook (onBeforeVerifyHook true fac liquidity payload req) schemeVerify
        = (⟨false, some "invalid_source_pay_to", none⟩, false) := by
  have hval : validateCrossChainRequest true fac payload req
      = ⟨true, some "invalid_source_pay_to"⟩ := by
    unfold validateCrossChainRequest
    rw [hx]
    simp [haddr, hsrc, hdst, husdc1, husdc2, bne_iff_ne, hpay]
  refine ⟨hval, ?_⟩
  intro liquidity schemeVerify
  unfold runVerifyWithHook onBeforeVerifyHook
  rw [hval]
  simp

/-- Witness for the amended claim C1: a fully valid cross-chain request
(supported chain pair, allowlisted assets) whose `payTo` is not the
facilitator aborts with `invalid_source_pay_to`. -/
theorem validateCrossChain_payTo_abort_witness :
    validateCrossChainRequest true facAddr destOnlyPayload wrongPayToReq
      = ⟨true, some "invalid_source_pay_to"⟩ :=
  (validateCrossChain_payTo_abort facAddr destOnlyPayload wrongPayToReq
    ⟨"eip155:11155111", usdcEthSepoliaLower, "0x2222222222222222222222222222222222222222"⟩
    (by decide) (by decide) (by decide) (by decide) (by decide) (by decide) (by decide)).1

/-! ## Claim C7: the strict USDC allowlist -/

/-- Claim C7: the strict `isUSDC(asset, network)` returns true only when
the asset is on the per-chain USDC allowlist for that network under
case-insensitive comparison, and the pre-verify validation aborts with
`unsupported_source_asset` (resp. `unsupported_destination_asset`) when a
cross-chain request that reaches the asset checks has a source
(resp. destination) asset that is not USDC per that allowlist. -/
theorem cctpIsUSDC_strict :
    (∀ asset chain, cctpIsUSDC asset chain = true →
      ∃ allow, defaultUsdcAddresses.lookup chain = some allow ∧
        ∃ a ∈ allow, lowerStr a = lowerStr asset) ∧
    (∀ (fac : String) (payload : PaymentPayloadM) (req : PaymentRequirementsM)
        (info : CrossChainInfoDest),
      extractCrossChainInfoDest payload = some info →
      isAddressModel info.destinationPayTo = true →
      cctpSupportsChain req.network = true →
      cctpSupportsChain info.destinationNetwork = true →
      cctpIsUSDC req.asset req.network = false →
      validateCrossChainRequest true fac payload req
        = ⟨true, some "unsupported_source_asset"⟩) ∧
    (∀ (fac : String) (payload : PaymentPayloadM) (req : PaymentRequirementsM)
        (info : CrossChainInfoDest),
      extractCrossChainInfoDest payload = some info →
      isAddressModel info.destinationPayTo = true →
      cctpSupportsChain req.network = true →
      cctpSupportsChain info.destinationNetwork = true →
      cctpIsUSDC req.asset req.network = true →
      cctpIsUSDC info.destinationAsset info.destinationNetwork = false →
      validateCrossChainRequest true fac payload req
        = ⟨true, some "unsupported_destination_asset"⟩) := by
  refine ⟨?_, ?_, ?_⟩
  · intro asset chain h
    unfold cctpIsUSDC at h
    by_cases haddr : isAddressModel asset = true
    · rw [haddr] at h
      simp only [Bool.not_true, Bool.false_eq_true, if_false] at h
      cases hl : List.lookup chain defaultUsdcAddresses with
      | none => rw [hl] at h; simp at h
      | some allow =>
        rw [hl] at h
        dsimp only at h
        by_cases hemp : allow.isEmpty = true
        · rw [if_pos hemp] at h; simp at h
        · rw [if_neg hemp] at h
          rcases List.any_eq_true.mp h with ⟨a, ha, hba⟩
          exact ⟨allow, rfl, a, ha, by simpa using hba⟩
    · have hfalse : isAddressModel asset = false := by
        cases hb : isAddressModel asset
        · rfl
        · exact absurd hb haddr
      rw [hfalse] at h
      simp at h
  · intro fac payload req info hx haddr hsrc hdst husdc
    unfold validateCrossChainRequest
    rw [hx]
    simp [haddr, hsrc, hdst, husdc]
  · intro fac payload req info hx haddr hsrc hdst husdc1 husdc2
    unfold validateCrossChainRequest
    rw [hx]
    simp [haddr, hsrc, hdst, husdc1, husdc2]

/-- Witness for claim C7: USDC on Base Sepolia is accepted (the allowlist
entry is found case-insensitively), and a cross-chain request whose
source asset is DAI aborts with `unsupported_source_asset`. -/
theorem cctpIsUSDC_strict_witness :
    (∃ allow, defaultUsdcAddresses.lookup "eip155:84532" = some allow ∧
      ∃ a ∈ allow, lowerStr a = lowerStr usdcBaseSepolia) ∧
    validateCrossChainRequest true facAddr destOnlyPayload
        { wrongPayToReq with asset := daiAddr }
      = ⟨true, some "unsupported_source_asset"⟩ :=
  ⟨cctpIsUSDC_strict.1 usdcBaseSepolia "eip155:84532" (by decide),
   cctpIsUSDC_strict.2.1 facAddr destOnlyPayload { wrongPayToReq with asset := daiAddr }
     ⟨"eip155:11155111", usdcEthSepoliaLower, "0x2222222222222222222222222222222222222222"⟩
     (by decide) (by decide) (by decide) (by decide) (by decide)⟩

/-! ## EIP-712 domain reconstruction (`buildDomain` in the exact-evm
domain scheme, `exact-evm-domain.ts` lines 84-110) -/

/-- An EIP-712 domain with optional members, as assembled field by field
by `buildDomain`. -/
structure Eip712Domain where
  name? : Option String := none
  version? : Option String := none
  verifyingContract? : Option String := none
  chainId? : Option Nat := none
  salt? : Option String := none
deriving Repr, DecidableEq

/-- JavaScript truthiness of the optional numeric `fields` bitmask:
present and nonzero (`fields ? a : b` takes `b` when `fields` is
`undefined` or `0`). -/
def fieldsTruthy : Option Nat → Bool
  | none => false
  | some f => f != 0

/-- Model of viem `getAddress` for stored values: a case normalisation of
the address (viem normalises to the EIP-55 mixed-case form; normalising to
lowercase instead identifies exactly the same pairs of addresses, and the
claims below concern only which domain members are present). -/
def getAddressModel (s : String) : String :=
  lowerStr s

/-- Model of `parseInt(requirements.network.split(":")[1])` on the
well-formed CAIP-2 ids this code receives. -/
def parseChainIdFromNetwork (network : String) : Nat :=
  (((network.splitOn ":").getD 1 "").toNat?).getD 0

/-- Embedding of `buildDomain(requirements, name, version,
verifyingContract)` from `exact-evm-domain.ts` lines 84-110. With a
truthy `extra.domain.fields` bitmask every `include*` flag comes from the
bitmask (`0x01` name, `0x02` version, `0x04` chainId, `0x08`
verifyingContract, `0x10` salt); with a falsy bitmask the defaults apply,
where a truthy `extra.domain.salt` suppresses chainId and enables salt.
The salt member is only assigned when a salt value is actually present. -/
def buildDomain (requirements : PaymentRequirementsM)
    (name version verifyingContract : String) : Eip712Domain :=
  let domainExtra : Option DomainExtra := requirements.extra?.bind (·.domain?)
  let chainId : Nat :=
    (domainExtra.bind (·.chainId?)).getD (parseChainIdFromNetwork requirements.network)
  let fields : Option Nat := domainExtra.bind (·.fields?)
  let ft : Bool := fieldsTruthy fields
  let fv : Nat := fields.getD 0
  let saltVal : Option String := domainExtra.bind (·.salt?)
  let includeName : Bool := if ft then fv &&& 0x1 != 0 else true
  let includeVersion : Bool := if ft then fv &&& 0x2 != 0 else true
  let includeChainId : Bool :=
    if ft then fv &&& 0x4 != 0 else if strTruthy saltVal then false else true
  let includeVerifying : Bool := if ft then fv &&& 0x8 != 0 else true
  let includeSalt : Bool := if ft then fv &&& 0x10 != 0 else strTruthy saltVal
  { name? := if includeName then some name else none
  , version? := if includeVersion then some version else none
  , verifyingContract? :=
      if includeVerifying then some (getAddressModel verifyingContract) else none
  , chainId? := if includeChainId then some chainId else none
  , salt? := if includeSalt && strTruthy saltVal then saltVal else none }

/-- Which members of a reconstructed domain are present, in the order
(name, version, chainId, verifyingContract, salt). -/
def domainPresence (d : Eip712Domain) : Bool × Bool × Bool × Bool × Bool :=
  (d.name?.isSome, d.version?.isSome, d.chainId?.isSome,
    d.verifyingContract?.isSome, d.salt?.isSome)

/-- Requirements whose `extra.domain.fields` bitmask is present with value
`0x00`. -/
def zeroBitmaskReq : PaymentRequirementsM :=
  { scheme := "exact"
  , network := "eip155:84532"
  , asset := usdcBaseSepolia
  , amount := 10000
  , payTo := facAddr
  , maxTimeoutSeconds := 600
  , extra? := some { name? := some "USDC", version? := some "2"
                   , domain? := some { fields? := some 0, chainId? := some 84532 } } }

/-- Counterexample to claim C9: with a present `fields` bitmask of `0x00`
the claim requires a domain with no members at all, but `buildDomain`
treats the falsy `0` as an absent bitmask and emits the default
`(name, version, chainId, verifyingContract)` members. -/
theorem buildDomain_zero_bitmask_cex :
    (zeroBitmaskReq.extra?.bind (·.domain?)).bind (·.fields?) = some 0 ∧
    domainPresence (buildDomain zeroBitmaskReq "USDC" "2" usdcBaseSepolia)
      = (true, true, true, true, false) := by
  constructor
  · rfl
  · rfl

/-- Claim C9 as amended: when `extra.domain.fields` is present and
nonzero, the reconstructed domain contains exactly the members selected
by the bitmask, except that the salt member additionally requires a salt
value to be provided; when `fields` is absent — or present but zero,
which JavaScript truthiness treats the same way — the domain defaults to
(name, version, chainId, verifyingContract), or to
(name, version, verifyingContract, salt) without chainId when
`extra.domain.salt` is provided. -/
theorem buildDomain_presence (req : PaymentRequirementsM)
    (name version verifyingContract : String) :
    domainPresence (buildDomain req name version verifyingContract)
      = (let de := req.extra?.bind (·.domain?)
         let saltTruthy := strTruthy (de.bind (·.salt?))
         match de.bind (·.fields?) with
         | some f =>
           if f ≠ 0 then
             (f &&& 0x1 != 0, f &&& 0x2 != 0, f &&& 0x4 != 0, f &&& 0x8 != 0,
               (f &&& 0x10 != 0) && saltTruthy)
           else if saltTruthy then (true, true, false, true, true)
           else (true, true, true, true, false)
         | none =>
           if saltTruthy then (true, true, false, true, true)
           else (true, true, true, true, false)) := by
  unfold buildDomain domainPresence
  cases hde : (req.extra?.bind (·.domain?)).bind (·.fields?) with
  | none =>
    cases hsalt : (req.extra?.bind (·.domain?)).bind (·.salt?) with
    | none => simp [hde, hsalt, fieldsTruthy, strTruthy]
    | some s =>
      by_cases hs : s = ""
      · simp [hde, hsalt, fieldsTruthy, strTruthy, hs]
      · simp [hde, hsalt, fieldsTruthy, strTruthy, hs]
  | some f =>
    by_cases hf : f = 0
    · subst hf
      cases hsalt : (req.extra?.bind (·.domain?)).bind (·.salt?) with
      | none => simp [hde, hsalt, fieldsTruthy, strTruthy]
      | some s =>
        by_cases hs : s = ""
        · simp [hde, hsalt, fieldsTruthy, strTruthy, hs]
        · simp [hde, hsalt, fieldsTruthy, strTruthy, hs]
    · cases hsalt : (req.extra?.bind (·.domain?)).bind (·.salt?) with
      | none =>
        simp only [hde, hsalt, fieldsTruthy, strTruthy, hf, bne_iff_ne, ne_eq,
          not_false_eq_true, if_true, Bool.and_false, Bool.and_true]
        simp [hf]
        refine ⟨?_, ?_, ?_, ?_⟩ <;> (split <;> simp_all)
      | some s =>
        by_cases hs : s = ""
        · simp [hde, hsalt, fieldsTruthy, strTruthy, hf, hs]
          refine ⟨?_, ?_, ?_, ?_⟩ <;> (split <;> simp_all)
        · simp [hde, hsalt, fieldsTruthy, strTruthy, hf, hs]
          refine ⟨?_, ?_, ?_, ?_, ?_⟩ <;> (split <;> simp_all)

/-! ## Exact-evm scheme verification
(`ExactEvmSchemeDomainFacilitator.verify`, `exact-evm-domain.ts` lines
219-330)

The chain-facing collaborators become parameters: `sigOk` is the result
of `signer.verifyTypedData` (a throw and a `false` result take the same
early return, so one boolean suffices), `balance?` is the result of the
`balanceOf` read (`none` models the swallowed RPC failure), and `now` is
`Math.floor(Date.now() / 1e3)`. -/

/-- The failure reason of `verify`, following the source's early returns
in order: scheme, EIP-712 domain parameters, network, signature,
recipient, `validBefore < now + 6`, `validAfter > now`, best-effort
balance, and authorized value. Returns `none` when every check passes. -/
def verifyFailure (sigOk : Bool) (balance? : Option Nat) (now : Nat)
    (payload : PaymentPayloadM) (req : PaymentRequirementsM) : Option String :=
  let auth := payload.payloadData.authorization
  if payload.accepted.scheme != "exact" || req.scheme != "exact" then
    some "unsupported_scheme"
  else if !(strTruthy (req.extra?.bind (·.name?)) && strTruthy (req.extra?.bind (·.version?))) then
    some "missing_eip712_domain"
  else if payload.accepted.network != req.network then
    some "network_mismatch"
  else if !sigOk then
    some "invalid_exact_evm_payload_signature"
  else if !addrEq auth.toAddr req.payTo then
    some "invalid_exact_evm_payload_recipient_mismatch"
  else if auth.validBefore < now + 6 then
    some "invalid_exact_evm_payload_authorization_valid_before"
  else if auth.validAfter > now then
    some "invalid_exact_evm_payload_authorization_valid_after"
  else if (match balance? with | some b => decide (b < req.amount) | none => false) then
    some "insufficient_funds"
  else if auth.value < req.amount then
    some "invalid_exact_evm_payload_authorization_value"
  else none

/-- Embedding of `ExactEvmSchemeDomainFacilitator.verify`: the response
built from `verifyFailure`; the payer is always the authorization's
`from` address. -/
def verify (sigOk : Bool) (balance? : Option Nat) (now : Nat)
    (payload : PaymentPayloadM) (req : PaymentRequirementsM) : VerifyResponse :=
  let payer := payload.payloadData.authorization.fromAddr
  match verifyFailure sigOk balance? now payload req with
  | some reason => ⟨false, some reason, some payer⟩
  | none => ⟨true, none, some payer⟩

theorem verify_invalid_reason_isSome (sigOk : Bool) (balance? : Option Nat) (now : Nat)
    (payload : PaymentPayloadM) (req : PaymentRequirementsM)
    (h : (verify sigOk balance? now payload req).isValid = false) :
    ∃ r, (verify sigOk balance? now payload req).invalidReason? = some r := by
  unfold verify at *
  cases hf : verifyFailure sigOk balance? now payload req with
  | none => rw [hf] at h; simp at h
  | some r => exact ⟨r, rfl⟩

/-! ## Exact-evm settlement
(`ExactEvmSchemeDomainFacilitator.settle`, `exact-evm-domain.ts` lines
332-441)

Settlement first re-runs `verify` and returns its reason on failure;
otherwise it runs the try block: the optional EIP-6492 factory
deployment, then `transferWithAuthorization` in the `(v,r,s)` or `bytes`
overload by signature length, then the receipt wait. The environment
carries the results of the chain calls and of viem's
`parseErc6492Signature` (for an unwrapped signature the parsed factory
address and calldata are absent and the inner signature is the raw one).
A throw anywhere in the try block is summarised by `writeResult =
.error`, which the catch turns into `transaction_failed`. The second
component of the result records the transactions the function submitted. -/

/-- On-chain submissions `settle` can make. -/
inductive Submission where
  | deployTx
  | transferVRS
  | transferBytes
deriving Repr, DecidableEq

/-- Results of the chain calls and of the ERC-6492 signature parse that
`settle` consumes. -/
structure SettleEnv where
  parse6492address? : Option String := none
  parse6492data? : Option String := none
  parse6492signature : String
  getCode? : Option String := none
  writeResult : Except Unit String
  receiptStatus : String → String

/-- The zero address compared against the parsed ERC-6492 factory. -/
def zeroAddress : String := "0x0000000000000000000000000000000000000000"

/-- Embedding of `ExactEvmSchemeDomainFacilitator.settle`. -/
def settle (sigOk : Bool) (balance? : Option Nat) (now : Nat) (env : SettleEnv)
    (deployERC4337WithEIP6492 : Bool)
    (payload : PaymentPayloadM) (req : PaymentRequirementsM) :
    SettleResponse × List Submission :=
  let auth := payload.payloadData.authorization
  let valid := verify sigOk balance? now payload req
  if !valid.isValid then
    (⟨false, "", payload.accepted.network, some auth.fromAddr,
        some (valid.invalidReason?.getD "invalid_scheme")⟩, [])
  else
    let deploys : List Submission :=
      match env.parse6492address?, env.parse6492data? with
      | some factoryAddress, some _ =>
        if deployERC4337WithEIP6492 && !addrEq factoryAddress zeroAddress then
          match env.getCode? with
          | none => [Submission.deployTx]
          | some bytecode => if bytecode == "0x" then [Submission.deployTx] else []
        else []
      | _, _ => []
    let sigChars := env.parse6492signature.toList
    let signatureLength :=
      if charsPrefix "0x".toList sigChars then sigChars.length - 2 else sigChars.length
    let isECDSA := signatureLength == 130
    let transfer := if isECDSA then Submission.transferVRS else Submission.transferBytes
    match env.writeResult with
    | .error _ =>
      (⟨false, "", payload.accepted.network, some auth.fromAddr, some "transaction_failed"⟩,
        deploys ++ [transfer])
    | .ok tx =>
      if env.receiptStatus tx != "success" then
        (⟨false, tx, payload.accepted.network, some auth.fromAddr,
            some "invalid_transaction_state"⟩, deploys ++ [transfer])
      else
        (⟨true, tx, payload.accepted.network, some auth.fromAddr, none⟩, deploys ++ [transfer])

/-! ## Cross-chain router (`CrossChainRouter`, `crossChainRouter.ts`)

The router delegates to the exact scheme on rewritten source-chain
requirements; the underlying scheme's `verify` and `settle` and the
bridge service's `getLockAddress` are parameters. -/

/-- Embedding of `CrossChainRouter.verify`: extract the extension, fail
with `missing_cross_chain_extension` when absent, rewrite the
requirements to the source chain (paying the bridge lock address when
bridging is enabled, the merchant otherwise) and delegate. -/
def routerVerify (lockAddr : String → String) (isEnabled : Bool)
    (exactVerify : PaymentPayloadM → PaymentRequirementsM → VerifyResponse)
    (payload : PaymentPayloadM) (req : PaymentRequirementsM) : VerifyResponse :=
  match extractCrossChainInfo payload with
  | none => ⟨false, some "missing_cross_chain_extension", none⟩
  | some info =>
    let payToAddress := if isEnabled then lockAddr info.sourceNetwork else req.payTo
    exactVerify payload
      { scheme := "exact", network := info.sourceNetwork, asset := info.sourceAsset
      , amount := req.amount, payTo := payToAddress
      , maxTimeoutSeconds := req.maxTimeoutSeconds, extra? := req.extra? }

/-- Embedding of `CrossChainRouter.settle`: re-verify, return the verify
reason on failure with an empty transaction, then delegate settlement to
the exact scheme on the source chain (to the merchant when bridging is
disabled, to the bridge lock when enabled), reporting the source network
on success. -/
def routerSettle (lockAddr : String → String) (isEnabled : Bool)
    (exactVerify : PaymentPayloadM → PaymentRequirementsM → VerifyResponse)
    (exactSettle : PaymentPayloadM → PaymentRequirementsM → SettleResponse × List Submission)
    (payload : PaymentPayloadM) (req : PaymentRequirementsM) :
    SettleResponse × List Submission :=
  let verifyResult := routerVerify lockAddr isEnabled exactVerify payload req
  if !verifyResult.isValid then
    (⟨false, "", req.network, verifyResult.payer?, verifyResult.invalidReason?⟩, [])
  else
    match extractCrossChainInfo payload with
    | none =>
      (⟨false, "", req.network, verifyResult.payer?, some "missing_cross_chain_extension"⟩, [])
    | some info =>
      if !isEnabled then
        let result := exactSettle payload
          { scheme := "exact", network := info.sourceNetwork, asset := info.sourceAsset
          , amount := req.amount, payTo := req.payTo
          , maxTimeoutSeconds := req.maxTimeoutSeconds, extra? := req.extra? }
        ({ result.1 with network := info.sourceNetwork }, result.2)
      else
        let result := exactSettle payload
          { scheme := "exact", network := info.sourceNetwork, asset := info.sourceAsset
          , amount := req.amount, payTo := lockAddr info.sourceNetwork
          , maxTimeoutSeconds := req.maxTimeoutSeconds, extra? := req.extra? }
        if !result.1.success then result
        else ({ result.1 with network := info.sourceNetwork }, result.2)

/-! ## Claim C2: temporal bounds of verify -/

/-- The buyer address used in the exact-evm fixtures. -/
def buyerAddr : String := "0x1111111111111111111111111111111111111111"

/-- Exact-scheme requirements used by the temporal fixtures. -/
def exactReq : PaymentRequirementsM :=
  { scheme := "exact"
  , network := "eip155:84532"
  , asset := usdcBaseSepolia
  , amount := 10000
  , payTo := "0x2222222222222222222222222222222222222222"
  , maxTimeoutSeconds := 600
  , extra? := some { name? := some "USDC", version? := some "2" } }

/-- An exact-evm payload matching `exactReq` with the given validity
window. -/
def exactPayloadAt (validAfter validBefore : Nat) : PaymentPayloadM :=
  { x402Version := 2
  , accepted := ⟨"exact", "eip155:84532"⟩
  , payloadData :=
      ⟨⟨buyerAddr, "0x2222222222222222222222222222222222222222",
        10000, validAfter, validBefore, "0x01"⟩, "0xsig"⟩
  , extensions? := none }

/-- Counterexample to claim C2: at `validBefore = now + 6` exactly, the
claim requires the valid-before failure, but the source checks
`validBefore < now + 6` strictly, so verification succeeds. -/
theorem verify_validBefore_boundary_cex :
    (exactPayloadAt 0 1006).payloadData.authorization.validBefore ≤ 1000 + 6 ∧
    verify true (some 1000000) 1000 (exactPayloadAt 0 1006) exactReq
      = ⟨true, none, some buyerAddr⟩ := by
  constructor
  · decide
  · decide

/-- Claim C2 as amended: for a payload that passes the scheme, domain,
signature and recipient checks, verify fails with the valid-before reason
exactly when `validBefore < now + 6` (strictly), fails with the
valid-after reason when `validBefore ≥ now + 6` and `validAfter > now`,
and on temporal grounds not otherwise: the temporal checks pass iff
`now ∈ [validAfter, validBefore − 6]`. -/
theorem verify_temporal_amended (sigOk : Bool) (balance? : Option Nat) (now : Nat)
    (payload : PaymentPayloadM) (req : PaymentRequirementsM)
    (h1 : payload.accepted.scheme = "exact") (h2 : req.scheme = "exact")
    (h3 : strTruthy (req.extra?.bind (·.name?)) = true)
    (h4 : strTruthy (req.extra?.bind (·.version?)) = true)
    (h5 : payload.accepted.network = req.network)
    (h6 : sigOk = true)
    (h7 : addrEq payload.payloadData.authorization.toAddr req.payTo = true) :
    (payload.payloadData.authorization.validBefore < now + 6 →
      verify sigOk balance? now payload req
        = ⟨false, some "invalid_exact_evm_payload_authorization_valid_before",
            some payload.payloadData.authorization.fromAddr⟩) ∧
    (now + 6 ≤ payload.payloadData.authorization.validBefore →
      payload.payloadData.authorization.validAfter > now →
      verify sigOk balance? now payload req
        = ⟨false, some "invalid_exact_evm_payload_authorization_valid_after",
            some payload.payloadData.authorization.fromAddr⟩) ∧
    (payload.payloadData.authorization.validAfter ≤ now →
      now + 6 ≤ payload.payloadData.authorization.validBefore →
      (verify sigOk balance? now payload req).invalidReason?
          ≠ some "invalid_exact_evm_payload_authorization_valid_before" ∧
      (verify sigOk balance? now payload req).invalidReason?
          ≠ some "invalid_exact_evm_payload_authorization_valid_after") := by
  subst h6
  have hbase : verifyFailure true balance? now payload req
      = (if payload.payloadData.authorization.validBefore < now + 6 then
           some "invalid_exact_evm_payload_authorization_valid_before"
         else if payload.payloadData.authorization.validAfter > now then
           some "invalid_exact_evm_payload_authorization_valid_after"
         else if (match balance? with | some b => decide (b < req.amount) | none => false) then
           some "insufficient_funds"
         else if payload.payloadData.authorization.value < req.amount then
           some "invalid_exact_evm_payload_authorization_value"
         else none) := by
    unfold verifyFailure
    simp [h1, h2, h3, h4, h5, h7]
  refine ⟨?_, ?_, ?_⟩
  · intro hvb
    unfold verify
    rw [hbase, if_pos hvb]
  · intro hvb hva
    unfold verify
    rw [hbase, if_neg (by omega), if_pos hva]
  · intro hva hvb
    have hres : verifyFailure true balance? now payload req = some "insufficient_funds"
        ∨ verifyFailure true balance? now payload req
            = some "invalid_exact_evm_payload_authorization_value"
        ∨ verifyFailure true balance? now payload req = none := by
      rw [hbase, if_neg (by omega), if_neg (by omega)]
      cases balance? with
      | none =>
        dsimp only
        by_cases hval : payload.payloadData.authorization.value < req.amount
        · rw [if_neg (by simp), if_pos hval]
          right; left; rfl
        · rw [if_neg (by simp), if_neg hval]
          right; right; rfl
      | some b =>
        dsimp only
        by_cases hblt : b < req.amount
        · rw [if_pos (by simpa using hblt)]
          left; rfl
        · rw [if_neg (by simpa using hblt)]
          by_cases hval : payload.payloadData.authorization.value < req.amount
          · rw [if_pos hval]
            right; left; rfl
          · rw [if_neg hval]
            right; right; rfl
    unfold verify
    rcases hres with h | h | h <;> rw [h] <;>
      exact ⟨by dsimp only; decide, by dsimp only; decide⟩

/-- Witness for the amended claim C2: an expired window fails with the
valid-before reason, a not-yet-valid window fails with the valid-after
reason. -/
theorem verify_temporal_amended_witness :
    verify true (some 1000000) 1000 (exactPayloadAt 0 500) exactReq
      = ⟨false, some "invalid_exact_evm_payload_authorization_valid_before", some buyerAddr⟩ ∧
    verify true (some 1000000) 1000 (exactPayloadAt 2000 2000000000) exactReq
      = ⟨false, some "invalid_exact_evm_payload_authorization_valid_after", some buyerAddr⟩ :=
  ⟨(verify_temporal_amended true (some 1000000) 1000 (exactPayloadAt 0 500) exactReq
      (by decide) (by decide) (by decide) (by decide) (by decide) rfl (by decide)).1
      (by decide),
   (verify_temporal_amended true (some 1000000) 1000 (exactPayloadAt 2000 2000000000) exactReq
      (by decide) (by decide) (by decide) (by decide) (by decide) rfl (by decide)).2.1
      (by decide) (by decide)⟩

/-! ## Claim C3: settle re-runs verify -/

/-- A settle environment whose chain calls succeed. -/
def settleEnvOk : SettleEnv :=
  { parse6492signature := "0xsig"
  , writeResult := .ok "0xsourcetx"
  , receiptStatus := fun _ => "success" }

/-- Claim C3: both `ExactEvmSchemeDomainFacilitator.settle` and
`CrossChainRouter.settle` first re-run verification; when it fails they
return `success = false` with `errorReason` equal to the verify reason
and an empty transaction, submitting no on-chain transaction; and a
successful settlement implies verification validity at settle-time. -/
theorem settle_reverifies (sigOk : Bool) (balance? : Option Nat) (now : Nat)
    (env : SettleEnv) (deployFlag : Bool)
    (lockAddr : String → String) (isEnabled : Bool)
    (exactVerify : PaymentPayloadM → PaymentRequirementsM → VerifyResponse)
    (exactSettle : PaymentPayloadM → PaymentRequirementsM → SettleResponse × List Submission)
    (payload : PaymentPayloadM) (req : PaymentRequirementsM) :
    ((verify sigOk balance? now payload req).isValid = false →
      ∃ r, (verify sigOk balance? now payload req).invalidReason? = some r ∧
        settle sigOk balance? now env deployFlag payload req
          = (⟨false, "", payload.accepted.network,
              some payload.payloadData.authorization.fromAddr, some r⟩, [])) ∧
    ((settle sigOk balance? now env deployFlag payload req).1.success = true →
      (verify sigOk balance? now payload req).isValid = true) ∧
    ((routerVerify lockAddr isEnabled exactVerify payload req).isValid = false →
      routerSettle lockAddr isEnabled exactVerify exactSettle payload req
        = (⟨false, "", req.network,
            (routerVerify lockAddr isEnabled exactVerify payload req).payer?,
            (routerVerify lockAddr isEnabled exactVerify payload req).invalidReason?⟩, [])) ∧
    ((routerSettle lockAddr isEnabled exactVerify exactSettle payload req).1.success = true →
      (routerVerify lockAddr isEnabled exactVerify payload req).isValid = true) := by
  have part1 : (verify sigOk balance? now payload req).isValid = false →
      ∃ r, (verify sigOk balance? now payload req).invalidReason? = some r ∧
        settle sigOk balance? now env deployFlag payload req
          = (⟨false, "", payload.accepted.network,
              some payload.payloadData.authorization.fromAddr, some r⟩, []) := by
    intro h
    obtain ⟨r, hr⟩ := verify_invalid_reason_isSome sigOk balance? now payload req h
    refine ⟨r, hr, ?_⟩
    unfold settle
    simp [h, hr]
  have part3 : (routerVerify lockAddr isEnabled exactVerify payload req).isValid = false →
      routerSettle lockAddr isEnabled exactVerify exactSettle payload req
        = (⟨false, "", req.network,
            (routerVerify lockAddr isEnabled exactVerify payload req).payer?,
            (routerVerify lockAddr isEnabled exactVerify payload req).invalidReason?⟩, []) := by
    intro h
    unfold routerSettle
    simp [h]
  refine ⟨part1, ?_, part3, ?_⟩
  · intro hs
    by_cases hv : (verify sigOk balance? now payload req).isValid = true
    · exact hv
    · have hvf : (verify sigOk balance? now payload req).isValid = false := by
        cases hb : (verify sigOk balance? now payload req).isValid
        · rfl
        · exact absurd hb hv
      obtain ⟨r, _, hset⟩ := part1 hvf
      rw [hset] at hs
      simp at hs
  · intro hs
    by_cases hv : (routerVerify lockAddr isEnabled exactVerify payload req).isValid = true
    · exact hv
    · have hvf : (routerVerify lockAddr isEnabled exactVerify payload req).isValid = false := by
        cases hb : (routerVerify lockAddr isEnabled exactVerify payload req).isValid
        · rfl
        · exact absurd hb hv
      rw [part3 hvf] at hs
      simp at hs

/-- A payload carrying the source-variant cross-chain extension, paying
the facilitator's lock address, used by the router witness. -/
def routerOkPayload : PaymentPayloadM :=
  { x402Version := 2
  , accepted := ⟨"exact", "eip155:84532"⟩
  , payloadData := ⟨⟨buyerAddr, facAddr, 10000, 0, 2000000000, "0x01"⟩, "0xsig"⟩
  , extensions? := some [(CROSS_CHAIN,
      { info? := some
          { sourceNetwork? := some "eip155:84532"
          , sourceAsset? := some usdcBaseSepolia } })] }

/-- Witness for claim C3: a failed verification propagates its reason
through both settles with no submission, and concrete successful settles
imply verification validity. -/
theorem settle_reverifies_witness :
    (∃ r, (verify true (some 1000000) 1000 (exactPayloadAt 0 500) exactReq).invalidReason?
          = some r ∧
        settle true (some 1000000) 1000 settleEnvOk false (exactPayloadAt 0 500) exactReq
          = (⟨false, "", "eip155:84532", some buyerAddr, some r⟩, [])) ∧
    (verify true (some 1000000) 1000 (exactPayloadAt 0 2000000000) exactReq).isValid = true ∧
    routerSettle (fun _ => facAddr) true
        (fun p r => verify true (some 1000000) 1000 p r)
        (fun p r => settle true (some 1000000) 1000 settleEnvOk false p r)
        routerOkPayload exactReq
      = (⟨true, "0xsourcetx", "eip155:84532", some buyerAddr, none⟩, [.transferBytes]) ∧
    (routerVerify (fun _ => facAddr) true
        (fun p r => verify true (some 1000000) 1000 p r) routerOkPayload exactReq).isValid
      = true :=
  ⟨(settle_reverifies true (some 1000000) 1000 settleEnvOk false (fun _ => facAddr) true
      (fun p r => verify true (some 1000000) 1000 p r)
      (fun p r => settle true (some 1000000) 1000 settleEnvOk false p r)
      (exactPayloadAt 0 500) exactReq).1 (by decide),
   (settle_reverifies true (some 1000000) 1000 settleEnvOk false (fun _ => facAddr) true
      (fun p r => verify true (some 1000000) 1000 p r)
      (fun p r => settle true (some 1000000) 1000 settleEnvOk false p r)
      (exactPayloadAt 0 2000000000) exactReq).2.1 (by decide),
   by decide,
   (settle_reverifies true (some 1000000) 1000 settleEnvOk false (fun _ => facAddr) true
      (fun p r => verify true (some 1000000) 1000 p r)
      (fun p r => settle true (some 1000000) 1000 settleEnvOk false p r)
      routerOkPayload exactReq).2.2.2 (by decide)⟩

/-! ## Bridge jobs and the SQLite store
(`types/bridgeJob.ts`, `services/bridgeJobRepository.ts`) -/

/-- Bridge job lifecycle status. -/
inductive BridgeJobStatus where
  | pending
  | bridging
  | completed
  | failed
  | cancelled
deriving Repr, DecidableEq

/-- Whether a status is terminal. -/
def BridgeJobStatus.isTerminal : BridgeJobStatus → Bool
  | .completed => true
  | .failed => true
  | .cancelled => true
  | _ => false

/-- A bridge job row. -/
structure BridgeJob where
  id : String
  idempotencyKey : String
  sourceNetwork : String
  destinationNetwork : String
  sourceTxHash : String
  amount : String
  destinationAsset : String
  destinationPayTo : String
  status : BridgeJobStatus
  attempts : Nat
  lastError? : Option String := none
  bridgeTxHash? : Option String := none
  destinationTxHash? : Option String := none
  messageId? : Option String := none
  createdAt : String
  updatedAt : String
deriving Repr, DecidableEq

/-- The column assignments of the SQL `UPDATE` in
`SqliteBridgeJobRepository.update` (lines 120-146): every column except
`id`, `idempotency_key` and `created_at` is set from the given job. -/
def applyUpdateRow (row job : BridgeJob) : BridgeJob :=
  { row with
      sourceNetwork := job.sourceNetwork
      destinationNetwork := job.destinationNetwork
      sourceTxHash := job.sourceTxHash
      amount := job.amount
      destinationAsset := job.destinationAsset
      destinationPayTo := job.destinationPayTo
      status := job.status
      attempts := job.attempts
      lastError? := job.lastError?
      bridgeTxHash? := job.bridgeTxHash?
      destinationTxHash? := job.destinationTxHash?
      messageId? := job.messageId?
      updatedAt := job.updatedAt }

/-- Embedding of `SqliteBridgeJobRepository.update`: an unconditional
last-write-wins `UPDATE ... WHERE id = @id` with no status guard. -/
def repoUpdate (store : List BridgeJob) (job : BridgeJob) : List BridgeJob :=
  store.map fun row => if row.id == job.id then applyUpdateRow row job else row

/-- Embedding of `SqliteBridgeJobRepository.getById`. -/
def repoGetById (store : List BridgeJob) (id : String) : Option BridgeJob :=
  store.find? fun row => row.id == id

/-! ## Bridge errors, results and the retry loop (`client-example.ts`
lines 340-573)

The thrown error objects are modelled by their `recoverability` tag and
the message string that `err?.message || String(err)` yields; the per
attempt bridge outcomes are a parameter `outcomes`, with `outcomes a` the
result of the `a`-th `bridgeService.bridge` call. -/

/-- A bridge error as classified by `isRetryableBridgeError`. -/
structure BridgeError where
  recoverability? : Option String := none
  msg : String
deriving Repr, DecidableEq

/-- Embedding of `isRetryableBridgeError(error)` (lines 372-389):
`recoverability = "FATAL"` and insufficient-balance messages are
permanent; nonce/fetch/timeout messages are retryable; everything else
falls through to retryable. -/
def isRetryableBridgeError (e : BridgeError) : Bool :=
  if e.recoverability? == some "FATAL" then false
  else
    let m := lowerStr e.msg
    if strIncludes m "insufficient usdc balance"
        || strIncludes m "insufficient token balance" then false
    else if strIncludes m "nonce too low" || strIncludes m "failed to fetch"
        || strIncludes m "gateway timeout" then true
    else true

/-- A bridge result. -/
structure BridgeResult where
  bridgeTxHash : String
  destinationTxHash : String
  messageId? : Option String := none
  sourceChain : String
  destChain : String
deriving Repr, DecidableEq

/-- A step of a Circle BridgeKit bridge run. -/
structure BridgeStep where
  name : String
  txHash? : Option String := none
  state : String := "success"
  attestation? : Option String := none
deriving Repr, DecidableEq

/-- Embedding of the result extraction in `CircleCCTPBridgeService.bridge`
(`circleCCTPBridgeService.ts` lines 586-625): an error state throws; a
missing or falsy burn transaction hash throws; the destination
transaction hash is the mint step's hash, defaulting to the empty string
when the mint is not yet confirmed (`mintStep?.txHash || ""`). The thrown
error messages are abbreviated to their constant prefixes. -/
def bridgeResultFromSteps (sourceChain destChain : String) (resultState : String)
    (steps : List BridgeStep) : Except BridgeError BridgeResult :=
  let burnTx? := (steps.find? fun s => s.name == "burn").bind (·.txHash?)
  let mintTx? := (steps.find? fun s => s.name == "mint").bind (·.txHash?)
  if resultState == "error" then
    .error ⟨none, "CCTP bridge failed at step"⟩
  else if !strTruthy burnTx? then
    .error ⟨none, "Burn transaction hash not found in bridge result"⟩
  else
    .ok { bridgeTxHash := burnTx?.getD ""
        , destinationTxHash := mintTx?.getD ""
        , messageId? := (steps.find? fun s => s.name == "fetchAttestation").bind (·.attestation?)
        , sourceChain := sourceChain
        , destChain := destChain }

/-- Outcome of one `bridgeService.bridge` call. -/
inductive AttemptOutcome where
  | ok (r : BridgeResult)
  | err (e : BridgeError)
deriving Repr, DecidableEq

/-- State returned by the retry loop: the result (or the error the JS
rethrows), the number of bridge invocations, the backoff delays slept in
milliseconds, and the job store with the status written by each job
update. -/
structure WorkerLoopResult where
  result : Except BridgeError BridgeResult
  invocations : Nat
  delays : List Nat
  store : List BridgeJob
  trace : List BridgeJobStatus
deriving Repr

/-- The `onAttempt` callback `handleCrossChainBridgeAsync` passes to the
retry loop (lines 512-521): re-read the job and persist `attempts := a`.
Returns the new store and the status written (if any). -/
def onAttemptUpdate (jobId nowStr : String) (a : Nat) (store : List BridgeJob) :
    List BridgeJob × List BridgeJobStatus :=
  match repoGetById store jobId with
  | some current =>
    let current' := { current with attempts := a, updatedAt := nowStr }
    (repoUpdate store current', [current'.status])
  | none => (store, [])

/-- Embedding of the `while` loop of `attemptBridgeWithRetry` (lines
406-460), instantiated with the job-updating `onAttempt` callback. Each
iteration increments the attempt counter, persists it, and invokes the
bridge; a success returns, a non-retryable error or an exhausted budget
breaks (the JS then rethrows the last error), and otherwise the loop
sleeps `attempt * 1000` milliseconds and retries. The fuel argument
equals the remaining loop iterations `maxAttempts - attempt`; exhausted
fuel corresponds to the loop exiting with no error recorded, where the JS
throws the generic retry-exhaustion error. -/
def attemptLoop (outcomes : Nat → AttemptOutcome) (maxAttempts : Nat) (jobId nowStr : String) :
    Nat → Nat → List BridgeJob → List BridgeJobStatus → List Nat → WorkerLoopResult
  | 0, attempt, store, trace, delays =>
    ⟨.error ⟨none, "Bridge failed after all retry attempts"⟩, attempt, delays, store, trace⟩
  | fuel + 1, attempt, store, trace, delays =>
    let a := attempt + 1
    let upd := onAttemptUpdate jobId nowStr a store
    match outcomes a with
    | .ok r => ⟨.ok r, a, delays, upd.1, trace ++ upd.2⟩
    | .err e =>
      if !isRetryableBridgeError e || decide (a ≥ maxAttempts) then
        ⟨.error e, a, delays, upd.1, trace ++ upd.2⟩
      else
        attemptLoop outcomes maxAttempts jobId nowStr fuel a upd.1 (trace ++ upd.2)
          (delays ++ [a * 1000])

/-- Embedding of `attemptBridgeWithRetry` (with the worker's `onAttempt`
callback): run the loop from attempt 0 with fuel `maxAttempts`. -/
def attemptBridgeWithRetry (outcomes : Nat → AttemptOutcome) (maxAttempts : Nat)
    (jobId nowStr : String) (store : List BridgeJob) : WorkerLoopResult :=
  attemptLoop outcomes maxAttempts jobId nowStr maxAttempts 0 store [] []

/-- Embedding of `handleCrossChainBridgeAsync` (lines 469-573) with a
repository and job id present: transition the job to `bridging`, run the
retry loop, and on success transition to `completed` recording
`bridgeTxHash`, `destinationTxHash` and `messageId` from the bridge
result, or on failure transition to `failed` recording `lastError`.
Returns the final store and the statuses written by the run's updates in
order. -/
def handleCrossChainBridgeAsync (store : List BridgeJob) (jobId : String)
    (outcomes : Nat → AttemptOutcome) (maxAttempts : Nat) (nowStr : String) :
    List BridgeJob × List BridgeJobStatus :=
  let start : List BridgeJob × List BridgeJobStatus :=
    match repoGetById store jobId with
    | some job =>
      (repoUpdate store { job with status := .bridging, updatedAt := nowStr },
        [BridgeJobStatus.bridging])
    | none => (store, [])
  let loopRes := attemptBridgeWithRetry outcomes maxAttempts jobId nowStr start.1
  let trace := start.2 ++ loopRes.trace
  match loopRes.result with
  | .ok r =>
    match repoGetById loopRes.store jobId with
    | some current =>
      (repoUpdate loopRes.store
        { current with
            status := .completed
            bridgeTxHash? := some r.bridgeTxHash
            destinationTxHash? := some r.destinationTxHash
            messageId? := r.messageId?
            updatedAt := nowStr }, trace ++ [.completed])
    | none => (loopRes.store, trace)
  | .error e =>
    match repoGetById loopRes.store jobId with
    | some current =>
      (repoUpdate loopRes.store
        { current with status := .failed, lastError? := some e.msg, updatedAt := nowStr },
        trace ++ [.failed])
    | none => (loopRes.store, trace)

theorem applyUpdateRow_id (row job : BridgeJob) : (applyUpdateRow row job).id = row.id :=
  rfl

theorem repoGetById_update (store : List BridgeJob) (job : BridgeJob) (i : String) :
    repoGetById (repoUpdate store job) i
      = (repoGetById store i).map
          (fun row => if row.id == job.id then applyUpdateRow row job else row) := by
  unfold repoGetById repoUpdate
  rw [List.find?_map]
  have hpred : (fun row => ((if row.id == job.id then applyUpdateRow row job else row).id == i))
      = (fun row : BridgeJob => (row.id == i)) := by
    funext row
    by_cases h : (row.id == job.id) = true
    · rw [if_pos h]; rfl
    · rw [if_neg h]
  have hcomp : ((fun row : BridgeJob => (row.id == i)) ∘
        (fun row => if row.id == job.id then applyUpdateRow row job else row))
      = (fun row : BridgeJob => (row.id == i)) := by
    funext row
    simp only [Function.comp]
    by_cases h : (row.id == job.id) = true
    · rw [if_pos h]; rfl
    · rw [if_neg h]
  rw [hcomp]

theorem repoGetById_id (store : List BridgeJob) (i : String) (cur : BridgeJob)
    (h : repoGetById store i = some cur) : cur.id = i := by
  have := List.find?_some h
  simpa using this

theorem repoGetById_update_self (store : List BridgeJob) (i : String) (cur job : BridgeJob)
    (h : repoGetById store i = some cur) (hid : job.id = cur.id) :
    repoGetById (repoUpdate store job) i = some (applyUpdateRow cur job) := by
  have hbeq : (cur.id == job.id) = true := by
    rw [hid]
    exact beq_self_eq_true _
  rw [repoGetById_update, h]
  dsimp only [Option.map]
  rw [if_pos hbeq]

/-- Inside the retry loop, the job's status, destination transaction hash
and last error are never changed: the per-attempt updates persist only
`attempts` and `updatedAt`, so the run's trace consists of copies of the
incoming status. -/
theorem attemptLoop_store_invariant (outcomes : Nat → AttemptOutcome) (maxA : Nat)
    (jobId nowStr : String) :
    ∀ (fuel attempt : Nat) (store : List BridgeJob) (trace : List BridgeJobStatus)
      (delays : List Nat) (cur : BridgeJob),
      repoGetById store jobId = some cur →
      ∃ cur2 m,
        repoGetById (attemptLoop outcomes maxA jobId nowStr fuel attempt store trace delays).store
            jobId = some cur2 ∧
        cur2.status = cur.status ∧
        cur2.destinationTxHash? = cur.destinationTxHash? ∧
        cur2.lastError? = cur.lastError? ∧
        (attemptLoop outcomes maxA jobId nowStr fuel attempt store trace delays).trace
          = trace ++ List.replicate m cur.status := by
  intro fuel
  induction fuel with
  | zero =>
    intro attempt store trace delays cur h
    exact ⟨cur, 0, h, rfl, rfl, rfl, by simp [attemptLoop]⟩
  | succ fuel ih =>
    intro attempt store trace delays cur h
    have hup : onAttemptUpdate jobId nowStr (attempt + 1) store
        = (repoUpdate store { cur with attempts := attempt + 1, updatedAt := nowStr },
            [cur.status]) := by
      unfold onAttemptUpdate
      rw [h]
    have hget' : repoGetById
          (repoUpdate store { cur with attempts := attempt + 1, updatedAt := nowStr }) jobId
        = some (applyUpdateRow cur { cur with attempts := attempt + 1, updatedAt := nowStr }) :=
      repoGetById_update_self store jobId cur _ h rfl
    have hstat : (applyUpdateRow cur
        { cur with attempts := attempt + 1, updatedAt := nowStr }).status = cur.status := rfl
    have hdest : (applyUpdateRow cur
        { cur with attempts := attempt + 1, updatedAt := nowStr }).destinationTxHash?
        = cur.destinationTxHash? := rfl
    have hlast : (applyUpdateRow cur
        { cur with attempts := attempt + 1, updatedAt := nowStr }).lastError?
        = cur.lastError? := rfl
    cases ho : outcomes (attempt + 1) with
    | ok r =>
      refine ⟨_, 1, ?_, hstat, hdest, hlast, ?_⟩
      · simp only [attemptLoop, hup, ho]
        exact hget'
      · simp [attemptLoop, hup, ho]
    | err e =>
      by_cases hcond : (!isRetryableBridgeError e || decide (attempt + 1 ≥ maxA)) = true
      · refine ⟨_, 1, ?_, hstat, hdest, hlast, ?_⟩
        · simp only [attemptLoop, hup, ho, hcond, if_true]
          exact hget'
        · simp [attemptLoop, hup, ho, hcond]
      · have hcondf : (!isRetryableBridgeError e || decide (attempt + 1 ≥ maxA)) = false := by
          cases hb : (!isRetryableBridgeError e || decide (attempt + 1 ≥ maxA))
          · rfl
          · exact absurd hb hcond
        obtain ⟨cur2, m, h1, h2, h3, h4, h5⟩ := ih (attempt + 1)
          (repoUpdate store { cur with attempts := attempt + 1, updatedAt := nowStr })
          (trace ++ [cur.status]) (delays ++ [(attempt + 1) * 1000]) _ hget'
        refine ⟨cur2, m + 1, ?_, ?_, ?_, ?_, ?_⟩
        · simp only [attemptLoop, hup, ho, hcondf, Bool.false_eq_true, if_false]
          exact h1
        · rw [h2, hstat]
        · rw [h3, hdest]
        · rw [h4, hlast]
        · simp only [attemptLoop, hup, ho, hcondf, Bool.false_eq_true, if_false]
          rw [h5, hstat]
          simp [List.replicate_succ, List.append_assoc]

/-- A freshly created pending job, as `createNewJob` produces. -/
def pendingJobFixture : BridgeJob :=
  { id := "job-1"
  , idempotencyKey := "eip155:84532:0xsourcetx:eip155:11155111"
  , sourceNetwork := "eip155:84532"
  , destinationNetwork := "eip155:11155111"
  , sourceTxHash := "0xsourcetx"
  , amount := "10000"
  , destinationAsset := usdcEthSepoliaLower
  , destinationPayTo := "0x2222222222222222222222222222222222222222"
  , status := .pending
  , attempts := 0
  , createdAt := "t0"
  , updatedAt := "t0" }

/-- A job in the terminal `completed` state. -/
def completedJobFixture : BridgeJob :=
  { pendingJobFixture with
      id := "job-2"
      status := .completed
      attempts := 1
      bridgeTxHash? := some "0xburn"
      destinationTxHash? := some "0xdest"
      updatedAt := "t1" }

/-- A job value that would move `completedJobFixture` back to `pending`. -/
def pendingOverwriteFixture : BridgeJob :=
  { completedJobFixture with
      status := .pending
      destinationTxHash? := none
      updatedAt := "t2" }

/-- Counterexample to claim C4: `SqliteBridgeJobRepository.update` is an
unconditional last-write-wins write with no status guard — applying it to
a `completed` job with a `pending` job value moves the job out of the
terminal state. -/
theorem repoUpdate_terminal_cex :
    (repoGetById [completedJobFixture] "job-2").map (·.status) = some .completed ∧
    BridgeJobStatus.isTerminal .completed = true ∧
    (repoGetById (repoUpdate [completedJobFixture] pendingOverwriteFixture) "job-2").map (·.status)
      = some .pending := by
  refine ⟨by decide, by decide, by decide⟩

/-- Claim C4 as amended: within one worker run started on an existing
job, terminal statuses are written only as the run's final update — the
run's status trace is `bridging, …, bridging` followed by a single
`completed` or `failed` — but the job store itself does not reject
updates to terminal jobs (its update is unconditional last-write-wins,
see the counterexample). -/
theorem worker_terminal_trace (store : List BridgeJob) (jobId : String)
    (outcomes : Nat → AttemptOutcome) (maxA : Nat) (nowStr : String)
    (h : (repoGetById store jobId).isSome = true) :
    ∃ m fin, (handleCrossChainBridgeAsync store jobId outcomes maxA nowStr).2
        = List.replicate (m + 1) .bridging ++ [fin] ∧
      (fin = BridgeJobStatus.completed ∨ fin = BridgeJobStatus.failed) := by
  obtain ⟨j, hj⟩ := Option.isSome_iff_exists.mp h
  have hstart : repoGetById
        (repoUpdate store { j with status := .bridging, updatedAt := nowStr }) jobId
      = some (applyUpdateRow j { j with status := .bridging, updatedAt := nowStr }) :=
    repoGetById_update_self store jobId j _ hj rfl
  obtain ⟨cur2, m, h1, h2, h3, h4, h5⟩ :=
    attemptLoop_store_invariant outcomes maxA jobId nowStr maxA 0
      (repoUpdate store { j with status := .bridging, updatedAt := nowStr }) [] [] _ hstart
  have hst : (applyUpdateRow j { j with status := .bridging, updatedAt := nowStr }).status
      = .bridging := rfl
  rw [hst] at h2 h5
  unfold handleCrossChainBridgeAsync
  rw [hj]
  unfold attemptBridgeWithRetry at *
  cases hres : (attemptLoop outcomes maxA jobId nowStr maxA 0
      (repoUpdate store { j with status := .bridging, updatedAt := nowStr }) [] []).result with
  | ok r =>
    refine ⟨m, .completed, ?_, Or.inl rfl⟩
    simp only [hres, h1, h5]
    simp [List.replicate_succ]
  | error e =>
    refine ⟨m, .failed, ?_, Or.inr rfl⟩
    simp only [hres, h1, h5]
    simp [List.replicate_succ]

/-- Witness for the amended claim C4: a concrete run (one successful
bridge attempt) writes the trace `[bridging, bridging, completed]`. -/
theorem worker_terminal_trace_witness :
    ∃ m fin, (handleCrossChainBridgeAsync [pendingJobFixture] "job-1"
        (fun _ => .ok { bridgeTxHash := "0xburn", destinationTxHash := "0xmint"
                      , sourceChain := "eip155:84532", destChain := "eip155:11155111" })
        3 "t1").2
        = List.replicate (m + 1) .bridging ++ [fin] ∧
      (fin = BridgeJobStatus.completed ∨ fin = BridgeJobStatus.failed) :=
  worker_terminal_trace [pendingJobFixture] "job-1" _ 3 "t1" (by decide)

/-! ## Claim C5: destinationTxHash and completion -/

/-- A bridge result whose mint was not yet confirmed when the bridge call
returned: `mintStep?.txHash || ""` yields the empty string. -/
def unconfirmedMintResult : BridgeResult :=
  { bridgeTxHash := "0xburn", destinationTxHash := ""
  , sourceChain := "eip155:84532", destChain := "eip155:11155111" }

/-- Counterexample to claim C5: a bridge run whose steps carry no mint
transaction yields `destinationTxHash = ""`, and the worker then marks
the job `completed` with an empty `destinationTxHash` — a completed job
without a non-empty destination transaction hash. -/
theorem worker_completed_empty_destTx_cex :
    bridgeResultFromSteps "eip155:84532" "eip155:11155111" "success"
        [{ name := "burn", txHash? := some "0xburn" }]
      = .ok unconfirmedMintResult ∧
    (repoGetById (handleCrossChainBridgeAsync [pendingJobFixture] "job-1"
        (fun _ => .ok unconfirmedMintResult) 3 "t1").1 "job-1").map
        (fun fin => (fin.status, fin.destinationTxHash?))
      = some (BridgeJobStatus.completed, some "") := by
  constructor
  · rfl
  · decide

/-- Claim C5 as amended: for a worker run started on a job without a
destination transaction hash, the final job has `destinationTxHash`
assigned exactly when its status is `completed` — but the assigned hash
is the bridge result's `destinationTxHash`, which is the empty string
when the mint was not yet confirmed (see the counterexample), so
`completed` does not guarantee a non-empty hash. -/
theorem worker_destTx_iff_completed (store : List BridgeJob) (jobId : String)
    (outcomes : Nat → AttemptOutcome) (maxA : Nat) (nowStr : String) (j : BridgeJob)
    (hj : repoGetById store jobId = some j)
    (hdest : j.destinationTxHash? = none) :
    ∃ fin, repoGetById (handleCrossChainBridgeAsync store jobId outcomes maxA nowStr).1 jobId
        = some fin ∧
      (fin.destinationTxHash?.isSome = true ↔ fin.status = .completed) ∧
      (fin.status = .completed ∨ fin.status = .failed) := by
  have hstart : repoGetById
        (repoUpdate store { j with status := .bridging, updatedAt := nowStr }) jobId
      = some (applyUpdateRow j { j with status := .bridging, updatedAt := nowStr }) :=
    repoGetById_update_self store jobId j _ hj rfl
  obtain ⟨cur2, m, h1, h2, h3, h4, h5⟩ :=
    attemptLoop_store_invariant outcomes maxA jobId nowStr maxA 0
      (repoUpdate store { j with status := .bridging, updatedAt := nowStr }) [] [] _ hstart
  have hd0 : (applyUpdateRow j
      { j with status := .bridging, updatedAt := nowStr }).destinationTxHash? = none := hdest
  rw [hd0] at h3
  unfold handleCrossChainBridgeAsync
  rw [hj]
  unfold attemptBridgeWithRetry at *
  cases hres : (attemptLoop outcomes maxA jobId nowStr maxA 0
      (repoUpdate store { j with status := .bridging, updatedAt := nowStr }) [] []).result with
  | ok r =>
    refine ⟨applyUpdateRow cur2
      { cur2 with
          status := .completed
          bridgeTxHash? := some r.bridgeTxHash
          destinationTxHash? := some r.destinationTxHash
          messageId? := r.messageId?
          updatedAt := nowStr }, ?_, ?_, ?_⟩
    · simp only [hres, h1]
      exact repoGetById_update_self _ jobId cur2 _ h1 rfl
    · exact ⟨fun _ => rfl, fun _ => rfl⟩
    · exact Or.inl rfl
  | error e =>
    refine ⟨applyUpdateRow cur2
      { cur2 with status := .failed, lastError? := some e.msg, updatedAt := nowStr },
      ?_, ?_, ?_⟩
    · simp only [hres, h1]
      exact repoGetById_update_self _ jobId cur2 _ h1 rfl
    · constructor
      · intro hiso
        rw [show (applyUpdateRow cur2
            { cur2 with status := .failed, lastError? := some e.msg, updatedAt := nowStr }).destinationTxHash?
          = cur2.destinationTxHash? from rfl, h3] at hiso
        exact absurd hiso (by decide)
      · intro hc
        exact absurd (show BridgeJobStatus.failed = .completed from hc) (by decide)
    · exact Or.inr rfl

/-- Witness for the amended claim C5: a run whose only attempt fails
fatally leaves the job `failed` with no destination transaction hash. -/
theorem worker_destTx_iff_completed_witness :
    ∃ fin, repoGetById (handleCrossChainBridgeAsync [pendingJobFixture] "job-1"
        (fun _ => .err { recoverability? := some "FATAL", msg := "bridge burn reverted" })
        3 "t1").1 "job-1"
        = some fin ∧
      (fin.destinationTxHash?.isSome = true ↔ fin.status = .completed) ∧
      (fin.status = .completed ∨ fin.status = .failed) :=
  worker_destTx_iff_completed [pendingJobFixture] "job-1" _ 3 "t1" pendingJobFixture
    (by decide) (by decide)

/-! ## Claim C8: the retry policy -/

theorem attemptLoop_invocations_le (outcomes : Nat → AttemptOutcome) (maxA : Nat)
    (jobId nowStr : String) :
    ∀ (fuel attempt : Nat) (store : List BridgeJob) (trace : List BridgeJobStatus)
      (delays : List Nat), attempt + fuel ≤ maxA →
      (attemptLoop outcomes maxA jobId nowStr fuel attempt store trace delays).invocations
        ≤ maxA := by
  intro fuel
  induction fuel with
  | zero =>
    intro attempt store trace delays h
    simp only [attemptLoop]
    omega
  | succ fuel ih =>
    intro attempt store trace delays h
    cases ho : outcomes (attempt + 1) with
    | ok r =>
      simp only [attemptLoop, ho]
      omega
    | err e =>
      by_cases hc : (!isRetryableBridgeError e || decide (attempt + 1 ≥ maxA)) = true
      · simp only [attemptLoop, ho, hc, if_true]
        omega
      · have hcf : (!isRetryableBridgeError e || decide (attempt + 1 ≥ maxA)) = false := by
          cases hb : (!isRetryableBridgeError e || decide (attempt + 1 ≥ maxA))
          · rfl
          · exact absurd hb hc
        simp only [attemptLoop, ho, hcf, Bool.false_eq_true, if_false]
        exact ih (attempt + 1) _ _ _ (by omega)

/-- The retry loop stops exactly at the first attempt `k` whose outcome
is a success, a non-retryable error, or an error with the budget
exhausted, having slept `attempt * 1000` milliseconds after each of the
preceding retryable failures. -/
theorem attemptLoop_stops (outcomes : Nat → AttemptOutcome) (maxA : Nat)
    (jobId nowStr : String) (k : Nat) (hkA : k ≤ maxA)
    (hpre : ∀ i, 0 < i → i < k → ∃ e, outcomes i = .err e ∧ isRetryableBridgeError e = true)
    (hstop : (∃ r, outcomes k = .ok r) ∨
      (∃ e, outcomes k = .err e ∧ (isRetryableBridgeError e = false ∨ k = maxA))) :
    ∀ (fuel attempt : Nat) (store : List BridgeJob) (trace : List BridgeJobStatus)
      (delays : List Nat), attempt < k → attempt + fuel = maxA →
      (attemptLoop outcomes maxA jobId nowStr fuel attempt store trace delays).invocations
          = k ∧
      (attemptLoop outcomes maxA jobId nowStr fuel attempt store trace delays).delays
          = delays ++ (List.range' (attempt + 1) (k - 1 - attempt)).map (· * 1000) ∧
      (∀ r, outcomes k = .ok r →
        (attemptLoop outcomes maxA jobId nowStr fuel attempt store trace delays).result
          = .ok r) ∧
      (∀ e, outcomes k = .err e →
        (attemptLoop outcomes maxA jobId nowStr fuel attempt store trace delays).result
          = .error e) := by
  intro fuel
  induction fuel with
  | zero =>
    intro attempt store trace delays h1 h2
    exact absurd h1 (by omega)
  | succ fuel ih =>
    intro attempt store trace delays h1 h2
    by_cases hk : attempt + 1 = k
    · rcases hstop with ⟨r, hr⟩ | ⟨e, he, hcond⟩
      · have ho : outcomes (attempt + 1) = .ok r := by rw [hk]; exact hr
        refine ⟨?_, ?_, ?_, ?_⟩
        · simp only [attemptLoop, ho]
          omega
        · simp only [attemptLoop, ho]
          have : k - 1 - attempt = 0 := by omega
          simp [this]
        · intro r' hr'
          rw [hr] at hr'
          cases hr'
          simp only [attemptLoop, ho]
        · intro e' he'
          rw [hr] at he'
          cases he'
      · have ho : outcomes (attempt + 1) = .err e := by rw [hk]; exact he
        have hcondt : (!isRetryableBridgeError e || decide (attempt + 1 ≥ maxA)) = true := by
          rcases hcond with hf | hmax
          · simp [hf]
          · have : attempt + 1 ≥ maxA := by omega
            simp [this]
        refine ⟨?_, ?_, ?_, ?_⟩
        · simp only [attemptLoop, ho, hcondt, if_true]
          omega
        · simp only [attemptLoop, ho, hcondt, if_true]
          have : k - 1 - attempt = 0 := by omega
          simp [this]
        · intro r' hr'
          rw [he] at hr'
          cases hr'
        · intro e' he'
          rw [he] at he'
          cases he'
          simp only [attemptLoop, ho, hcondt, if_true]
    · have h1' : attempt + 1 < k := by omega
      obtain ⟨e, he, hre⟩ := hpre (attempt + 1) (by omega) h1'
      have hcondf : (!isRetryableBridgeError e || decide (attempt + 1 ≥ maxA)) = false := by
        have hlt : ¬(attempt + 1 ≥ maxA) := by omega
        simp [hre, hlt]
      have hred : attemptLoop outcomes maxA jobId nowStr (fuel + 1) attempt store trace delays
          = attemptLoop outcomes maxA jobId nowStr fuel (attempt + 1)
              (onAttemptUpdate jobId nowStr (attempt + 1) store).1
              (trace ++ (onAttemptUpdate jobId nowStr (attempt + 1) store).2)
              (delays ++ [(attempt + 1) * 1000]) := by
        simp only [attemptLoop, he, hcondf, Bool.false_eq_true, if_false]
      rw [hred]
      obtain ⟨g1, g2, g3, g4⟩ := ih (attempt + 1) _ _ _ h1' (by omega)
      refine ⟨g1, ?_, g3, g4⟩
      rw [g2, List.append_assoc]
      congr 1
      have hn : k - 1 - attempt = (k - 1 - (attempt + 1)) + 1 := by omega
      rw [hn, List.range'_succ, List.map_cons]
      rfl

/-- Claim C8: the retry loop invokes the bridge at most `maxAttempts`
times; a permanent error (`recoverability = FATAL` or an
insufficient-balance message) stops it immediately; transient errors are
retried with a linear backoff of `attempt * 1000` milliseconds; and after
exhaustion the worker transitions the job to `failed` with `lastError`
recorded. -/
theorem retryLoop_policy :
    (∀ (outcomes : Nat → AttemptOutcome) (maxA : Nat) (jobId nowStr : String)
        (store : List BridgeJob),
      (attemptBridgeWithRetry outcomes maxA jobId nowStr store).invocations ≤ maxA) ∧
    (∀ e : BridgeError, isRetryableBridgeError e = false ↔
      (e.recoverability? = some "FATAL" ∨
        strIncludes (lowerStr e.msg) "insufficient usdc balance" = true ∨
        strIncludes (lowerStr e.msg) "insufficient token balance" = true)) ∧
    (∀ (outcomes : Nat → AttemptOutcome) (maxA : Nat) (jobId nowStr : String)
        (store : List BridgeJob) (k : Nat) (e : BridgeError),
      0 < k → k ≤ maxA →
      (∀ i, 0 < i → i < k → ∃ e', outcomes i = .err e' ∧ isRetryableBridgeError e' = true) →
      outcomes k = .err e → isRetryableBridgeError e = false →
      (attemptBridgeWithRetry outcomes maxA jobId nowStr store).result = .error e ∧
      (attemptBridgeWithRetry outcomes maxA jobId nowStr store).invocations = k ∧
      (attemptBridgeWithRetry outcomes maxA jobId nowStr store).delays
        = (List.range' 1 (k - 1)).map (· * 1000)) ∧
    (∀ (outcomes : Nat → AttemptOutcome) (maxA : Nat) (jobId nowStr : String)
        (e : BridgeError),
      0 < maxA →
      (∀ i, 0 < i → i < maxA → ∃ e', outcomes i = .err e' ∧ isRetryableBridgeError e' = true) →
      outcomes maxA = .err e →
      ∀ store : List BridgeJob,
        (attemptBridgeWithRetry outcomes maxA jobId nowStr store).result = .error e ∧
        (attemptBridgeWithRetry outcomes maxA jobId nowStr store).invocations = maxA ∧
        (attemptBridgeWithRetry outcomes maxA jobId nowStr store).delays
          = (List.range' 1 (maxA - 1)).map (· * 1000) ∧
        (∀ j, repoGetById store jobId = some j →
          ∃ fin, repoGetById
              (handleCrossChainBridgeAsync store jobId outcomes maxA nowStr).1 jobId
              = some fin ∧
            fin.status = .failed ∧ fin.lastError? = some e.msg)) := by
  refine ⟨?_, ?_, ?_, ?_⟩
  · intro outcomes maxA jobId nowStr store
    exact attemptLoop_invocations_le outcomes maxA jobId nowStr maxA 0 store [] [] (by omega)
  · intro e
    unfold isRetryableBridgeError
    by_cases h1 : (e.recoverability? == some "FATAL") = true
    · rw [if_pos h1]
      exact ⟨fun _ => Or.inl (by simpa using h1), fun _ => rfl⟩
    · rw [if_neg h1]
      by_cases h2 : (strIncludes (lowerStr e.msg) "insufficient usdc balance"
          || strIncludes (lowerStr e.msg) "insufficient token balance") = true
      · rw [if_pos h2]
        exact ⟨fun _ => Or.inr (Bool.or_eq_true _ _ ▸ h2), fun _ => rfl⟩
      · rw [if_neg h2]
        constructor
        · intro hfalse
          split at hfalse <;> simp at hfalse
        · intro hor
          exfalso
          rcases hor with ha | hb | hc
          · exact h1 (by simp [ha])
          · exact h2 (Bool.or_eq_true _ _ |>.mpr (Or.inl hb))
          · exact h2 (Bool.or_eq_true _ _ |>.mpr (Or.inr hc))
  · intro outcomes maxA jobId nowStr store k e hk1 hk2 hpre he hperm
    have := attemptLoop_stops outcomes maxA jobId nowStr k hk2 hpre
      (Or.inr ⟨e, he, Or.inl hperm⟩) maxA 0 store [] [] hk1 (by omega)
    obtain ⟨g1, g2, _, g4⟩ := this
    refine ⟨g4 e he, g1, ?_⟩
    rw [show attemptBridgeWithRetry outcomes maxA jobId nowStr store
        = attemptLoop outcomes maxA jobId nowStr maxA 0 store [] [] from rfl, g2]
    simp
  · intro outcomes maxA jobId nowStr e hmax hpre he store
    have hstops := attemptLoop_stops outcomes maxA jobId nowStr maxA le_rfl hpre
      (Or.inr ⟨e, he, Or.inr rfl⟩)
    obtain ⟨g1, g2, _, g4⟩ := hstops maxA 0 store [] [] hmax (by omega)
    refine ⟨g4 e he, g1, ?_, ?_⟩
    · rw [show attemptBridgeWithRetry outcomes maxA jobId nowStr store
          = attemptLoop outcomes maxA jobId nowStr maxA 0 store [] [] from rfl, g2]
      simp
    · intro j hj
      have hstart : repoGetById
            (repoUpdate store { j with status := .bridging, updatedAt := nowStr }) jobId
          = some (applyUpdateRow j { j with status := .bridging, updatedAt := nowStr }) :=
        repoGetById_update_self store jobId j _ hj rfl
      obtain ⟨cur2, m, h1, h2, h3, h4, h5⟩ :=
        attemptLoop_store_invariant outcomes maxA jobId nowStr maxA 0
          (repoUpdate store { j with status := .bridging, updatedAt := nowStr }) [] [] _ hstart
      obtain ⟨_, _, _, g4'⟩ := hstops maxA 0
        (repoUpdate store { j with status := .bridging, updatedAt := nowStr }) [] []
        hmax (by omega)
      have hres : (attemptLoop outcomes maxA jobId nowStr maxA 0
          (repoUpdate store { j with status := .bridging, updatedAt := nowStr }) [] []).result
          = .error e := g4' e he
      unfold handleCrossChainBridgeAsync
      rw [hj]
      unfold attemptBridgeWithRetry
      refine ⟨applyUpdateRow cur2
        { cur2 with status := .failed, lastError? := some e.msg, updatedAt := nowStr },
        ?_, rfl, rfl⟩
      simp only [hres, h1]
      exact repoGetById_update_self _ jobId cur2 _ h1 rfl

/-- A retryable error message (unclassified ones also retry). -/
def nonceLowErr : BridgeError := { msg := "nonce too low" }

/-- A fatal bridge error. -/
def fatalBridgeErr : BridgeError := { recoverability? := some "FATAL", msg := "bridge burn reverted" }

/-- A transient fetch failure (mixed case, exercising the lowercasing). -/
def fetchFailErr : BridgeError := { msg := "Failed to fetch" }

/-- Scenario: one retryable failure, then a fatal error. -/
def permanentScenario : Nat → AttemptOutcome :=
  fun i => if i = 1 then .err nonceLowErr else .err fatalBridgeErr

/-- Scenario: every attempt fails with a transient error. -/
def transientScenario : Nat → AttemptOutcome :=
  fun _ => .err fetchFailErr

/-- Witness for claim C8: the fatal second attempt stops the loop at two
invocations with a single 1000 ms backoff, and exhausting three transient
attempts drives the job to `failed` with the error recorded. -/
theorem retryLoop_policy_witness :
    ((attemptBridgeWithRetry permanentScenario 3 "job-1" "t1" []).result = .error fatalBridgeErr ∧
      (attemptBridgeWithRetry permanentScenario 3 "job-1" "t1" []).invocations = 2 ∧
      (attemptBridgeWithRetry permanentScenario 3 "job-1" "t1" []).delays
        = (List.range' 1 1).map (· * 1000)) ∧
    (∃ fin, repoGetById (handleCrossChainBridgeAsync [pendingJobFixture] "job-1"
          transientScenario 3 "t1").1 "job-1" = some fin ∧
        fin.status = .failed ∧ fin.lastError? = some "Failed to fetch") :=
  ⟨retryLoop_policy.2.2.1 permanentScenario 3 "job-1" "t1" [] 2 fatalBridgeErr
      (by omega) (by omega)
      (by
        intro i hi1 hi2
        have hi : i = 1 := by omega
        subst hi
        exact ⟨nonceLowErr, by decide, by decide⟩)
      (by decide) (by decide),
   (retryLoop_policy.2.2.2 transientScenario 3 "job-1" "t1" fetchFailErr
      (by omega)
      (by
        intro i hi1 hi2
        exact ⟨fetchFailErr, rfl, by decide⟩)
      (by decide) [pendingJobFixture]).2.2.2 pendingJobFixture (by decide)⟩

end RailBridge
